import Mathlib

/-
Verification of the acquisition-and-aggregation pipeline of this repository.

The TypeScript sources are shallowly embedded as pure Lean functions:
  - `common/retry.ts` : `withRetry`, `withFsRetry`, `isRetryableFirestoreError`
    (effects modelled as an explicit execution trace of calls / waits / log lines);
  - `steps/rankings.ts` : the three acquisition tiers, the fallback ladder,
    the persistence loop and the per-event collection loop
    (network modelled as an oracle giving each fetch's outcome);
  - `steps/probe.ts` : `saveCityLeagueEvents` over an explicit document store;
  - the daily snapshot builder (`runDailyRankingSnapshots`) per category.

JavaScript truthiness, `||`, `??`, `String(...)`, `padStart` and template
strings are modelled explicitly where the code relies on them.
-/

/-- A JavaScript value as it appears in the error objects inspected by
`isRetryableFirestoreError` (a string, a number, or absent/undefined). -/
inductive JsVal where
  | vstr (s : String)
  | vnum (n : Int)
  | vundef
deriving DecidableEq, Repr

/-- JavaScript truthiness of a `JsVal` (`""` and `0` are falsy). -/
def JsVal.truthy : JsVal → Bool
  | .vstr s => s ≠ ""
  | .vnum n => n ≠ 0
  | .vundef => false

/-- JavaScript `String(v)` on a `JsVal`. -/
def JsVal.toStr : JsVal → String
  | .vstr s => s
  | .vnum n => toString n
  | .vundef => "undefined"

/-- JavaScript `a || b` on `JsVal`s. -/
def jsOr (a b : JsVal) : JsVal := if a.truthy then a else b

/-- JavaScript `a || b` on nullable strings (`""` is falsy). -/
def jsOrStr (a b : Option String) : Option String :=
  match a with
  | some s => if s = "" then b else some s
  | none => b

/-- JavaScript `s || null` on a nullable string (`""` becomes `null`). -/
def jsOrNullStr (a : Option String) : Option String := jsOrStr a none

/-- ASCII lowercasing (`toLowerCase`), computed on the character list so
that concrete instances reduce. -/
def jsToLower (s : String) : String := String.mk (s.data.map Char.toLower)

/-- ASCII uppercasing (`toUpperCase`). -/
def jsToUpper (s : String) : String := String.mk (s.data.map Char.toUpper)

/-- Whitespace trimming at both ends (`trim`). -/
def jsTrim (s : String) : String :=
  String.mk (((s.data.dropWhile Char.isWhitespace).reverse.dropWhile Char.isWhitespace).reverse)

/-- Substring scan used for `s.includes sub`. -/
def containsSubAux (sub : List Char) : List Char → Bool
  | [] => sub.isEmpty
  | c :: rest => if sub.isPrefixOf (c :: rest) then true else containsSubAux sub rest

/-- The substring test `s.includes sub` of the retry classifier and the
content-type checks. -/
def containsSub (s sub : String) : Bool := containsSubAux sub.data s.data

/-- `String(n).padStart(2, "0")` from the id-generation code. -/
def padStart2 (n : Nat) : String :=
  let s := toString n
  if s.length < 2 then "0" ++ s else s

/-- A thrown JavaScript error as inspected by the retry helpers: the
`code`/`status`/`statusCode` fields, the `message` field, and the string the
object itself coerces to. -/
structure JsError where
  code : JsVal
  status : JsVal
  statusCode : JsVal
  message : Option String
  strRepr : String
deriving DecidableEq, Repr

/-- `e.message || String(e)`, the message text used by the classifier and the
log lines. -/
def errMessage (e : JsError) : String :=
  match e.message with
  | some s => if s = "" then e.strRepr else s
  | none => e.strRepr

/-- An error whose only content is a message string (`new Error(msg)`). -/
def mkError (msg : String) : JsError :=
  ⟨.vundef, .vundef, .vundef, some msg, msg⟩

/-- Embedding of `isRetryableFirestoreError` from `common/retry.ts`: the
code string is the first truthy of `code`/`status`/`statusCode`, lowercased;
it is transient when that string contains `unavailable`, `deadline` or
`etimedout` or equals `503`/`504`, or, when the code string is empty and the
message non-empty, when the uppercased message contains `UNAVAILABLE`,
`DEADLINE_EXCEEDED` or `ETIMEDOUT`. -/
def isRetryableFirestoreError (e : JsError) : Bool :=
  let code := jsOr e.code (jsOr e.status e.statusCode)
  let msg := errMessage e
  let codeStr :=
    match code with
    | .vstr s => jsToLower s
    | c => jsToLower (if c.truthy then c.toStr else "")
  if containsSub codeStr "unavailable" || containsSub codeStr "deadline" ||
      codeStr == "503" || codeStr == "504" || containsSub codeStr "etimedout" then
    true
  else if codeStr == "" && !(msg == "") then
    let m := jsToUpper msg
    containsSub m "UNAVAILABLE" || containsSub m "DEADLINE_EXCEEDED" || containsSub m "ETIMEDOUT"
  else
    false

/-- Backoff before the next try after failed attempt `i`:
`Math.min(16000, 1000 * Math.pow(2, i))`. -/
def backoff (i : Nat) : Nat := min 16000 (1000 * 2 ^ i)

/-- Execution trace of one run of a retry wrapper: the outcome, how many
times the wrapped operation was invoked, the final contents of the
caller-supplied log array, and the list of performed backoff waits (ms). -/
structure RetryTrace (α : Type) where
  result : Except JsError α
  calls : Nat
  logs : List String
  waits : List Nat
deriving Repr

/-- The log line `withRetry` pushes after failed attempt `i`. -/
def retryLogLine (label : String) (maxRetry i : Nat) (e : JsError) : String :=
  let a := i + 1
  let b := maxRetry + 1
  let w := backoff i
  let m := errMessage e
  s!"{label}: retry {a}/{b} after {w}ms: {m}"

/-- The log line `withFsRetry` pushes after a retryable failed attempt `i`. -/
def fsRetryLogLine (label : String) (maxRetry i : Nat) (e : JsError) : String :=
  let a := i + 1
  let b := maxRetry + 1
  let w := backoff i
  let m := errMessage e
  s!"{label}: fs-retry {a}/{b} after {w}ms: {m}"

/-- The log line `withFsRetry` pushes when it gives up on attempt `i`. -/
def noRetryLogLine (label : String) (maxRetry i : Nat) (e : JsError) : String :=
  let m := errMessage e
  s!"{label}: no-retry ({i}/{maxRetry}) -> {m}"

/-- Loop body of `withRetry` (generic retry): the operation is modelled as a
function from the attempt index to that invocation's outcome; `fuel`
counts the remaining loop iterations (`maxRetry + 1 - i`). After every
failed attempt — the last one included — it logs one line and waits
`backoff i`; after the loop it re-throws the last error. -/
def withRetryGo (op : Nat → Except JsError α) (maxRetry : Nat) (label : String) :
    Nat → Nat → List String → List Nat → Option JsError → RetryTrace α
  | i, 0, logs, waits, lastErr =>
    ⟨.error (lastErr.getD (mkError label)), i, logs, waits⟩
  | i, fuel + 1, logs, waits, _ =>
    match op i with
    | .ok a => ⟨.ok a, i + 1, logs, waits⟩
    | .error e =>
        withRetryGo op maxRetry label (i + 1) fuel
          (logs ++ [retryLogLine label maxRetry i e]) (waits ++ [backoff i]) (some e)

/-- Embedding of `withRetry` from `common/retry.ts`. -/
def withRetry (op : Nat → Except JsError α) (maxRetry : Nat) (logs : List String)
    (label : String) : RetryTrace α :=
  withRetryGo op maxRetry label 0 (maxRetry + 1) logs [] none

/-- Loop body of `withFsRetry`: a non-retryable error, or any error on the
last attempt (`i = maxRetry`), is logged and re-thrown immediately with no
wait; a retryable error before that logs one line and waits `backoff i`. -/
def withFsRetryGo (op : Nat → Except JsError α) (maxRetry : Nat) (label : String) :
    Nat → Nat → List String → List Nat → Option JsError → RetryTrace α
  | i, 0, logs, waits, lastErr =>
    ⟨.error (lastErr.getD (mkError label)), i, logs, waits⟩
  | i, fuel + 1, logs, waits, _ =>
    match op i with
    | .ok a => ⟨.ok a, i + 1, logs, waits⟩
    | .error e =>
        if !isRetryableFirestoreError e || i == maxRetry then
          ⟨.error e, i + 1, logs ++ [noRetryLogLine label maxRetry i e], waits⟩
        else
          withFsRetryGo op maxRetry label (i + 1) fuel
            (logs ++ [fsRetryLogLine label maxRetry i e]) (waits ++ [backoff i]) (some e)

/-- Embedding of `withFsRetry` from `common/retry.ts` (default `maxRetry = 4`
is supplied by callers explicitly here). -/
def withFsRetry (op : Nat → Except JsError α) (logs : List String) (label : String)
    (maxRetry : Nat := 4) : RetryTrace α :=
  withFsRetryGo op maxRetry label 0 (maxRetry + 1) logs [] none

/-- The three city-league categories (`オープン`/`シニア`/`ジュニア`). -/
inductive Cat where
  | openC
  | senior
  | junior
deriving DecidableEq, Repr

/-- The English category code used in URLs and document ids. -/
def Cat.code : Cat → String
  | .openC => "open"
  | .senior => "senior"
  | .junior => "junior"

/-- Leading decimal digits of a character list. -/
def takeDigits : List Char → List Char
  | [] => []
  | c :: rest => if c.isDigit then c :: takeDigits rest else []

/-- Scan for the first position where `/event/detail/` is followed by at
least one digit, returning those digits (the regex
`/\/event\/detail\/(\d+)/` of the tiers). -/
def findEventIdAux : List Char → Option String
  | [] => none
  | c :: rest =>
    if "/event/detail/".toList.isPrefixOf (c :: rest) then
      let ds := takeDigits ((c :: rest).drop 14)
      if ds.isEmpty then findEventIdAux rest else some (String.mk ds)
    else findEventIdAux rest

/-- The event-holding id extracted from a detail URL, `none` when the URL is
structurally unusable. -/
def extractEventHoldingId (url : String) : Option String := findEventIdAux url.data

/-- The error every tier throws for a detail URL without an event id. -/
def structuralError (url : String) : JsError :=
  mkError ("cannot extract event_holding_id from " ++ url)

/-- One raw row of the JSON search endpoint's `results` array. -/
structure ApiRawRow where
  rank : Option Int
  name : Option String
  point : Option Int
  player_id : Option String
  area : Option String
  deck_id : Option String
deriving DecidableEq, Repr

/-- A normalized ranking row as produced by the acquisition tiers. -/
structure NRow where
  rank : Option Int
  name : Option String
  point : Option Int
  player_id : Option String
  area : Option String
  deck_id : Option String
  deckViewUrl : Option String
deriving DecidableEq, Repr

/-- Normalization applied to raw API rows (`deck_id || null` and the
players-site deck view URL). -/
def normalizeRow (r : ApiRawRow) : NRow :=
  let did := jsOrNullStr r.deck_id
  { rank := r.rank, name := r.name, point := r.point, player_id := r.player_id,
    area := r.area, deck_id := did,
    deckViewUrl := did.map (fun d => "https://players.pokemon-card.com/deck/" ++ d) }

/-- The fixed rank allow-list `{1,2,3,5,9}` applied to `Number(r.rank)`. -/
def allowedRank (r : ApiRawRow) : Bool :=
  match r.rank with
  | some n => n == 1 || n == 2 || n == 3 || n == 5 || n == 9
  | none => false

/-- The parsed JSON body of the search endpoint: the optional
`event.shopName` and the `results` array (`none` models a missing or
non-array `results`). -/
structure ApiJson where
  shopName : Option String
  results : Option (List ApiRawRow)
deriving DecidableEq, Repr

/-- Outcome of one `fetch`: either the promise rejects, or a response with
an `ok` flag, a content type, and a body whose JSON parse may fail. -/
inductive FetchResult where
  | reject (e : JsError)
  | resp (ok : Bool) (contentType : String) (body : Except JsError ApiJson)
deriving Repr

/-- What one tier returns: the organizer (shop name) and the rows. -/
structure TierResp where
  organizer : Option String
  results : List NRow
deriving DecidableEq, Repr

/-- Embedding of `fetchEventRankingsViaApi` (tier a) from
`steps/rankings.ts`. `net1`/`net2` are the outcomes of the page-1 and
page-2 fetches. A non-OK status or a non-JSON content type on page 1 is
absorbed as zero rows; a rejected fetch or a failing page-1 body parse
propagates; page 2 (category Open only) absorbs a body parse failure via
`.catch(() => null)` but still propagates a rejected fetch. -/
def fetchEventRankingsViaApi (detailUrl : String) (cat : Cat) (net1 net2 : FetchResult) :
    Except JsError TierResp :=
  match extractEventHoldingId detailUrl with
  | none => .error (structuralError detailUrl)
  | some _ =>
    match net1 with
    | .reject e => .error e
    | .resp ok ct body =>
      if !ok then .ok ⟨none, []⟩
      else if !containsSub ct "application/json" then .ok ⟨none, []⟩
      else
        match body with
        | .error e => .error e
        | .ok first =>
          let organizer := jsOrNullStr first.shopName
          let page0 := ((first.results.getD []).filter allowedRank).take 8
          if cat = .openC then
            match net2 with
            | .reject e => .error e
            | .resp ok2 _ body2 =>
              if ok2 then
                match body2 with
                | .ok j2 =>
                  match j2.results with
                  | some rs =>
                    .ok ⟨organizer, (page0 ++ (rs.filter allowedRank).take 8).map normalizeRow⟩
                  | none => .ok ⟨organizer, page0.map normalizeRow⟩
                | .error _ => .ok ⟨organizer, page0.map normalizeRow⟩
              else .ok ⟨organizer, page0.map normalizeRow⟩
          else .ok ⟨organizer, page0.map normalizeRow⟩

/-- Per-page rank buckets of the HTML tier: page 1. -/
def assignRanksPage0 : List Nat := [1, 2, 3, 3, 5, 5, 5, 5]

/-- Per-page rank buckets of the HTML tier: page 2 (Open only). -/
def assignRanksPage1 : List Nat := [9, 9, 9, 9, 9, 9, 9, 9]

/-- The minimal row the HTML tier builds from one accepted deck link. -/
def mkHtmlRow (rk : Nat) (did href : String) : NRow :=
  ⟨some (rk : Int), none, none, some did, none, some did, some href⟩

/-- One page of the HTML tier: walk the extracted deck links, skip links
without a deck id and links already seen (across pages), assign the rank at
the current position of `rankPlan`, and stop after 8 accepted links. -/
def collectPage (extract : String → Option String) (rankPlan : List Nat) :
    List String → List String → List NRow → (List NRow × List String)
  | [], seen, acc => (acc, seen)
  | href :: rest, seen, acc =>
    match jsOrNullStr (extract href) with
    | none => collectPage extract rankPlan rest seen acc
    | some did =>
      if seen.contains href then collectPage extract rankPlan rest seen acc
      else
        let seen2 := href :: seen
        match rankPlan.get? acc.length with
        | none => (acc, seen2)
        | some rk =>
          let acc2 := acc ++ [mkHtmlRow rk did href]
          if 8 ≤ acc2.length then (acc2, seen2)
          else collectPage extract rankPlan rest seen2 acc2

/-- Embedding of `fetchEventRankingsViaHtml` (tier c): `page0Links` and
`page1Links` are the deck links found on the rendered result pages;
`extract` stands for the imported `extractDeckIdFromUrl`. Page 2 is
visited only for category Open. -/
def fetchEventRankingsViaHtml (extract : String → Option String) (detailUrl : String)
    (cat : Cat) (page0Links page1Links : List String) : Except JsError TierResp :=
  match extractEventHoldingId detailUrl with
  | none => .error (structuralError detailUrl)
  | some _ =>
    let r0 := collectPage extract assignRanksPage0 page0Links [] []
    if cat = .openC then
      let r1 := collectPage extract assignRanksPage1 page1Links r0.2 []
      .ok ⟨none, r0.1 ++ r1.1⟩
    else .ok ⟨none, r0.1⟩

/-- The two categories other than the assigned one, in the fixed order
`['オープン','シニア','ジュニア']` of the force-rescue block. -/
def altCats (cat : Cat) : List Cat :=
  ([Cat.openC, Cat.senior, Cat.junior]).filter (fun c => c ≠ cat)

/-- The force-rescue merge loop: for each alternative category try the API
tier, fall back to the browser tier when it yields zero rows, and
concatenate all non-empty outcomes. -/
def altLoop (altApi altBrowser : Cat → Except JsError TierResp) :
    List Cat → Except JsError (List NRow)
  | [] => .ok []
  | c :: rest =>
    match altApi c with
    | .error e => .error e
    | .ok va =>
      let arr := va.results
      let step : Except JsError (List NRow) :=
        if arr.isEmpty then
          match altBrowser c with
          | .error e => .error e
          | .ok vb => .ok vb.results
        else .ok arr
      match step with
      | .error e => .error e
      | .ok arr2 =>
        match altLoop altApi altBrowser rest with
        | .error e => .error e
        | .ok merged => .ok (arr2 ++ merged)

/-- De-duplication by `player_id` applied to the force-rescue merge: rows
without a truthy `player_id` are dropped, later repeats of a seen id are
dropped. -/
def dedupByPlayer : List NRow → List String → List NRow
  | [], _ => []
  | r :: rest, seen =>
    match jsOrNullStr r.player_id with
    | none => dedupByPlayer rest seen
    | some k =>
      if seen.contains k then dedupByPlayer rest seen
      else r :: dedupByPlayer rest (k :: seen)

/-- Result of the acquisition ladder for one event: the winning tier's
response, plus which fallback tiers were invoked and whether the
force-rescue path ran. -/
structure LadderOut where
  resp : TierResp
  invokedB : Bool
  invokedC : Bool
  usedAlt : Bool
deriving Repr

/-- The fallback ladder of `saveRankingsForEventLocal` (tier a → tier b →
tier c, then force-rescue): advance only when the current results are
empty; tier b replaces organizer and results wholesale; tier c keeps the
previous organizer when it has none (`fh.organizer || organizer`) and
always replaces the results (`fh.results` is an array, hence truthy). -/
def runLadder (force : Bool) (cat : Cat) (tierA tierB tierC : Except JsError TierResp)
    (altApi altBrowser : Cat → Except JsError TierResp) : Except JsError LadderOut :=
  match tierA with
  | .error e => .error e
  | .ok ra =>
    let step1 : Except JsError (Option String × List NRow × Bool) :=
      if ra.results.isEmpty then
        match tierB with
        | .error e => .error e
        | .ok rb => .ok (rb.organizer, rb.results, true)
      else .ok (ra.organizer, ra.results, false)
    match step1 with
    | .error e => .error e
    | .ok (org1, res1, invB) =>
      let step2 : Except JsError (Option String × List NRow × Bool) :=
        if res1.isEmpty then
          match tierC with
          | .error e => .error e
          | .ok rc => .ok (jsOrStr rc.organizer org1, rc.results, true)
        else .ok (org1, res1, false)
      match step2 with
      | .error e => .error e
      | .ok (org2, res2, invC) =>
        if force && res2.isEmpty then
          match altLoop altApi altBrowser (altCats cat) with
          | .error e => .error e
          | .ok merged => .ok ⟨⟨org2, dedupByPlayer merged []⟩, invB, invC, true⟩
        else .ok ⟨⟨org2, res2⟩, invB, invC, false⟩

/-- One document of `pokemon-event-rankings` as written by the collector. -/
structure RankDoc where
  originalEventId : String
  organizer : Option String
  cityLeagueCategory : Cat
  rank : Int
  positionIndex : Nat
  playerInfo : String
  points : Int
  deckUrl : Option String
  deckId : Option String
  imageStored : Bool
deriving DecidableEq, Repr

/-- Embedding of `canonicalizeDeckUrl` from `common/deck.ts`, with the
imported `extractDeckIdFromUrl` abstracted as `extract`. -/
def canonicalizeDeckUrl (extract : String → Option String) (u : String) : Option String :=
  (jsOrNullStr (extract u)).map
    (fun d => "https://www.pokemon-card.com/deck/confirm.html/deckID/" ++ d)

/-- The event key used in ranking ids: the document id with a leading
`event-` prefix stripped (the anchored `replace` regex of the source). -/
def eventKeyOf (eventDocId : String) : String :=
  if "event-".data.isPrefixOf eventDocId.data then eventDocId.drop 6 else eventDocId

/-- The persistence loop over acquired rows: skip rows without a truthy
`player_id` or with an invalid rank; assign each surviving row the per-rank
sequence from the counter state `seq` (starting at 0 per rank) and the
document id `rank-<eventKey>-<rank>-<zero-padded seq>`. -/
def buildWritesGo (extract : String → Option String) (eventDocId : String)
    (organizer : Option String) (cat : Cat) :
    List NRow → (Int → Nat) → List (String × RankDoc)
  | [], _ => []
  | r :: rest, seq =>
    let deckUrl :=
      match r.deckViewUrl with
      | some u => canonicalizeDeckUrl extract u
      | none => none
    match jsOrNullStr r.player_id with
    | none => buildWritesGo extract eventDocId organizer cat rest seq
    | some _ =>
      let eventKey := eventKeyOf eventDocId
      let rankNum : Int := r.rank.getD (-1)
      if rankNum < 0 then buildWritesGo extract eventDocId organizer cat rest seq
      else
        let s := seq rankNum
        let rid := "rank-" ++ eventKey ++ "-" ++ toString rankNum ++ "-" ++ padStart2 s
        let deckId := deckUrl.bind extract
        (rid,
          { originalEventId := eventDocId, organizer := jsOrNullStr organizer,
            cityLeagueCategory := cat, rank := r.rank.getD (-1), positionIndex := s,
            playerInfo := r.name.getD "", points := r.point.getD 0,
            deckUrl := deckUrl, deckId := deckId, imageStored := false }) ::
          buildWritesGo extract eventDocId organizer cat rest
            (fun k => if k = rankNum then s + 1 else seq k)

/-- The batch contents produced for one event's acquired rows (every
per-rank counter starts at 0). -/
def buildWrites (extract : String → Option String) (eventDocId : String)
    (organizer : Option String) (cat : Cat) (results : List NRow) :
    List (String × RankDoc) :=
  buildWritesGo extract eventDocId organizer cat results (fun _ => 0)

/-- The summary `saveRankingsForEventLocal` returns. -/
structure SaveSummary where
  saved : Nat
  organizer : Option String
  total : Nat
deriving DecidableEq, Repr

/-- Observable outcome of `saveRankingsForEventLocal` for one event: the
returned summary or the propagated error, the batch contents, whether the
batch was committed, and whether the parent event document was marked
`rankingsScraped = true`. -/
structure SaveOutcome where
  result : Except JsError SaveSummary
  writes : List (String × RankDoc)
  committed : Bool
  marked : Bool
deriving Repr

/-- Embedding of `saveRankingsForEventLocal`: run the ladder, build the
batch, commit it only when at least one row was accepted (`commitRes` is
the outcome of the retried `batch.commit()`), then unconditionally mark the
parent event collected (`markRes` is the outcome of the retried event
update). Errors of any step propagate. -/
def saveRankingsForEventLocal (extract : String → Option String) (eventDocId : String)
    (cat : Cat) (force : Bool) (tierA tierB tierC : Except JsError TierResp)
    (altApi altBrowser : Cat → Except JsError TierResp)
    (commitRes markRes : Except JsError Unit) : SaveOutcome :=
  match runLadder force cat tierA tierB tierC altApi altBrowser with
  | .error e => ⟨.error e, [], false, false⟩
  | .ok lad =>
    let writes := buildWrites extract eventDocId lad.resp.organizer cat lad.resp.results
    let saved := writes.length
    let commitStep : Except JsError Bool :=
      if 0 < saved then
        match commitRes with
        | .error e => .error e
        | .ok _ => .ok true
      else .ok false
    match commitStep with
    | .error e => ⟨.error e, writes, false, false⟩
    | .ok committed =>
      match markRes with
      | .error e => ⟨.error e, writes, committed, false⟩
      | .ok _ =>
        ⟨.ok ⟨saved, lad.resp.organizer, lad.resp.results.length⟩, writes, committed, true⟩

/-- Everything the collection loop needs for one target event: its document
id, detail URL, category (from the probe; `none` is skipped), the network
outcomes for the API tier's two fetches, the outcomes of the browser and
HTML tiers, the force-rescue oracles, and the store outcomes. -/
structure EventCtx where
  id : String
  detailUrl : String
  cat : Option Cat
  api1 : FetchResult
  api2 : FetchResult
  tierB : Except JsError TierResp
  tierC : Except JsError TierResp
  altApi : Cat → Except JsError TierResp
  altBrowser : Cat → Except JsError TierResp
  commitRes : Except JsError Unit
  markRes : Except JsError Unit

/-- Processing of one target event inside `runRankings`: tier a is the real
`fetchEventRankingsViaApi` over that event's network outcomes. -/
def processEvent (extract : String → Option String) (force : Bool) (e : EventCtx)
    (c : Cat) : SaveOutcome :=
  saveRankingsForEventLocal extract e.id c force
    (fetchEventRankingsViaApi e.detailUrl c e.api1 e.api2) e.tierB e.tierC
    e.altApi e.altBrowser e.commitRes e.markRes

/-- The per-event collection loop of `runRankings`: events without a known
category are skipped; an error escaping `saveRankingsForEventLocal`
propagates and aborts the rest of the loop; otherwise the saved counts are
summed. -/
def runRankingsLoop (extract : String → Option String) (force : Bool) :
    List EventCtx → Except JsError Nat
  | [] => .ok 0
  | e :: rest =>
    match e.cat with
    | none => runRankingsLoop extract force rest
    | some c =>
      match (processEvent extract force e c).result with
      | .error err => .error err
      | .ok s => (runRankingsLoop extract force rest).map (fun t => s.saved + t)

/-- One scraped listing row as classified by the probe (`Event` in
`steps/probe.ts`): `detailUrl` may be missing and the category may be
unknown. -/
structure ProbeEvent where
  dateYmd : String
  dateOnly : String
  location : String
  title : String
  detailUrl : Option String
  cityLeagueCategory : Option Cat
deriving DecidableEq, Repr

/-- One persisted `pokemon-events` document. -/
structure EvDoc where
  docId : String
  title : String
  dateYmd : String
  dateOnly : String
  detailUrl : String
  cityLeagueCategory : Option Cat
  rankingsScraped : Bool
deriving DecidableEq, Repr

/-- The `toCatCode` helper of the probe: anything that is not Senior or
Junior becomes the Open code. -/
def toCatCode : Option Cat → Cat
  | some .senior => .senior
  | some .junior => .junior
  | _ => .openC

/-- Firestore `set` of one document: replace the document with the same id,
or create it. -/
def setDoc : List EvDoc → EvDoc → List EvDoc
  | [], d => [d]
  | x :: rest, d => if x.docId == d.docId then d :: rest else x :: setDoc rest d

/-- Committing a write batch: apply its `set` operations in order. -/
def applyBatch (store : List EvDoc) (batch : List EvDoc) : List EvDoc :=
  batch.foldl setDoc store

/-- The probe's save loop: skip events without a truthy `detailUrl`, skip
events whose `detailUrl` already occurs in the store (the store only — the
rows queued in `batch` are not consulted), and number the rest per category
code continuing from the pre-existing counts in `seq`. -/
def probeLoop (store : List EvDoc) :
    List ProbeEvent → (Cat → Nat) → List EvDoc → Nat → (List EvDoc × Nat)
  | [], _, batch, n => (batch, n)
  | ev :: rest, seq, batch, n =>
    match jsOrNullStr ev.detailUrl with
    | none => probeLoop store rest seq batch n
    | some u =>
      if store.any (fun d => d.detailUrl == u) then probeLoop store rest seq batch n
      else
        let ccode := toCatCode ev.cityLeagueCategory
        let s := seq ccode + 1
        let seq2 := fun c => if c = ccode then s else seq c
        let docId := "event-" ++ ev.dateYmd ++ "-" ++ Cat.code ccode ++ "-" ++ padStart2 s
        let doc : EvDoc :=
          { docId := docId, title := ev.title, dateYmd := ev.dateYmd,
            dateOnly := jsTrim ev.dateOnly, detailUrl := u,
            cityLeagueCategory := ev.cityLeagueCategory, rankingsScraped := false }
        probeLoop store rest seq2 (batch ++ [doc]) (n + 1)

/-- Observable outcome of `saveCityLeagueEvents`: the store after the
conditional batch commit, the returned flags, and the batch contents. -/
structure ProbeSaveResult where
  store : List EvDoc
  saved : Bool
  documents : Nat
  batch : List EvDoc
deriving Repr

/-- Embedding of `saveCityLeagueEvents` from `steps/probe.ts`: per-category
numbering starts from the count of existing documents of the first event's
date, the loop deduplicates against the store, and the batch commits only
when at least one document was queued. -/
def saveCityLeagueEvents (store : List EvDoc) (events : List ProbeEvent) :
    ProbeSaveResult :=
  match events with
  | [] => ⟨store, false, 0, []⟩
  | ev0 :: _ =>
    let dateYmdFixed := ev0.dateYmd
    let counts : Cat → Nat := fun c =>
      (store.filter
        (fun d => d.dateYmd == dateYmdFixed && d.cityLeagueCategory == some c)).length
    let bn := probeLoop store events counts [] 0
    let store2 := if 0 < bn.2 then applyBatch store bn.1 else store
    ⟨store2, true, bn.2, bn.1⟩

/-- One stored ranking row as read back by the snapshot builder. -/
structure RankStoreDoc where
  rank : Int
  deckId : Option String
  deckUrl : Option String
  deckName : Option String
  playerInfo : Option String
  points : Option Int
  organizer : Option String
  originalEventId : Option String
deriving DecidableEq, Repr

/-- JavaScript `n || null` on a nullable integer (`0` becomes `null`). -/
def jsOrNullInt (a : Option Int) : Option Int :=
  match a with
  | some n => if n = 0 then none else some n
  | none => none

/-- One element of a snapshot's `rankings` array. -/
structure SnapRow where
  rank : Int
  deckId : Option String
  deckUrl : Option String
  deckName : Option String
  deckListImageUrl : Option String
  playerInfo : Option String
  points : Option Int
  organizer : Option String
  originalEventId : Option String
  groupId : Option String
deriving DecidableEq, Repr

/-- Projection of one stored row into a snapshot row
(`runDailyRankingSnapshots`, per-document body of the chunk loop);
`resolve` stands for the external, failure-tolerant
`resolveDeckImageUrl`. -/
def buildRow (resolve : String → Option String) (d : RankStoreDoc) : SnapRow :=
  let deckId := jsOrNullStr d.deckId
  let deckUrl := deckId.map
    (fun i => "https://www.pokemon-card.com/deck/confirm.html/deckID/" ++ i)
  let sourceUrl := jsOrStr deckUrl d.deckUrl
  let img :=
    match jsOrNullStr sourceUrl with
    | some u => resolve u
    | none => none
  { rank := d.rank, deckId := deckId, deckUrl := deckUrl,
    deckName := some (d.deckName.getD ""), deckListImageUrl := img,
    playerInfo := jsOrNullStr d.playerInfo, points := jsOrNullInt d.points,
    organizer := jsOrNullStr d.organizer,
    originalEventId := jsOrNullStr d.originalEventId, groupId := none }

/-- The ascending-rank comparison of the snapshot sorts. -/
def rankLe (a b : SnapRow) : Bool := decide (a.rank ≤ b.rank)

/-- The `groupId` assignment pass over the sorted rankings: one counter per
`(originalEventId, rank)` pair, incremented for every row; rows of rank
1, 2 or 3 with a non-empty event id receive
`<ymd>_<event>_<rank>_<zero-padded counter>`. -/
def assignGroupIdsGo (ymd : String) :
    List SnapRow → (String × Int → Nat) → List SnapRow
  | [], _ => []
  | r :: rest, counters =>
    let ev := r.originalEventId.getD ""
    let rk := r.rank
    let n := counters (ev, rk)
    let counters2 := fun k => if k = (ev, rk) then n + 1 else counters k
    let r2 :=
      if ev ≠ "" ∧ (rk = 1 ∨ rk = 2 ∨ rk = 3) then
        { r with groupId := some (ymd ++ "_" ++ ev ++ "_" ++ toString rk ++ "_" ++ padStart2 n) }
      else { r with groupId := none }
    r2 :: assignGroupIdsGo ymd rest counters2

/-- The organizer grouping key: trimmed name, `"unknown"` when empty or
missing. -/
def orgKey (o : Option String) : String :=
  let k := jsTrim (o.getD "")
  if k.length > 0 then k else "unknown"

/-- Insertion into the `byOrg` record, preserving first-seen key order. -/
def insertGroup : List (String × List SnapRow) → String → SnapRow → List (String × List SnapRow)
  | [], k, r => [(k, [r])]
  | (k0, rs) :: rest, k, r =>
    if k0 = k then (k0, rs ++ [r]) :: rest
    else (k0, rs) :: insertGroup rest k r

/-- The `byOrg` grouping of the snapshot builder. -/
def groupByOrg (rows : List SnapRow) : List (String × List SnapRow) :=
  rows.foldl (fun m r => insertGroup m (orgKey r.organizer) r) []

/-- The fallback pass over group rows (`予備措置`): a podium row that still
has no `groupId` receives the `00`-numbered one. -/
def patchRow (ymd : String) (r : SnapRow) : SnapRow :=
  match r.groupId with
  | some _ => r
  | none =>
    let ev := r.originalEventId.getD ""
    let rk := r.rank
    if ev ≠ "" ∧ (rk = 1 ∨ rk = 2 ∨ rk = 3) then
      { r with groupId := some (ymd ++ "_" ++ ev ++ "_" ++ toString rk ++ "_" ++ padStart2 0) }
    else r

/-- The `rankings` array and `groups` of one category's snapshot document.
In the source the group lists alias the row objects of `rankings`, so the
`groupId` assignment performed on `rankings` is visible in the groups; the
embedding reflects this by assigning `groupId`s before grouping (the
assignment touches no field the sort or the grouping reads). -/
def buildCategorySnapshot (resolve : String → Option String) (ymd : String)
    (docs : List RankStoreDoc) : List SnapRow × List (String × List SnapRow) :=
  let sorted := (docs.map (buildRow resolve)).mergeSort rankLe
  let withIds := assignGroupIdsGo ymd sorted (fun _ => 0)
  let groups0 := groupByOrg withIds
  let groups := groups0.map
    (fun g => (g.1, (g.2.mergeSort rankLe).map (patchRow ymd)))
  (withIds, groups)

/-- The category snapshot actually written: skipped entirely when the
category yields zero rows. -/
def snapshotWritten (resolve : String → Option String) (ymd : String)
    (docs : List RankStoreDoc) :
    Option (List SnapRow × List (String × List SnapRow)) :=
  let rg := buildCategorySnapshot resolve ymd docs
  if rg.1.isEmpty then none else some rg

/-- First-match lookup in the `byOrg` association list. -/
def lookupG : List (String × List SnapRow) → String → Option (List SnapRow)
  | [], _ => none
  | (k0, rs) :: rest, k => if k0 = k then some rs else lookupG rest k

/-- Combination describing how grouping extends an optional existing
bucket by newly filtered rows. -/
def optJoin : Option (List SnapRow) → List SnapRow → Option (List SnapRow)
  | some ys, xs => some (ys ++ xs)
  | none, [] => none
  | none, xs => some xs

/-- A sample transient-coded store error (code `UNAVAILABLE`). -/
def sampleUnavailableErr : JsError :=
  ⟨.vstr "UNAVAILABLE", .vundef, .vundef, some "service unavailable", "service unavailable"⟩

/-- A sample error whose code is the bare word `timeout`. -/
def sampleTimeoutErr : JsError :=
  ⟨.vstr "timeout", .vundef, .vundef, some "timeout", "timeout"⟩

/-- A sample network rejection for the acquisition tiers. -/
def sampleNetworkErr : JsError := mkError "network down"

/-- A minimal acquired row with a rank and a player id (for concrete
instances). -/
def mkRowRP (rk : Int) (pid : String) : NRow :=
  ⟨some rk, none, none, some pid, none, none, none⟩

/-- Whether the persistence loop accepts a row: a truthy `player_id` and a
non-negative `Number(rank ?? -1)`. -/
def acceptRow (r : NRow) : Bool :=
  match jsOrNullStr r.player_id with
  | none => false
  | some _ => decide (0 ≤ r.rank.getD (-1))

/-- The ranks of the accepted rows, in acquisition order. -/
def acceptedRanks (results : List NRow) : List Int :=
  (results.filter acceptRow).map (fun r => r.rank.getD (-1))

/-- The ranking document id `rank-<eventKey>-<rank>-<zero-padded seq>`. -/
def ridOf (eventDocId : String) (rk : Int) (s : Nat) : String :=
  "rank-" ++ eventKeyOf eventDocId ++ "-" ++ toString rk ++ "-" ++ padStart2 s

/-- The per-rank sequence specification: each rank in order is paired with
the number of earlier occurrences of the same rank (`pre` holds the ranks
already processed). -/
def seqSpec (pre : List Int) : List Int → List (Int × Nat)
  | [] => []
  | rk :: rest => (rk, pre.count rk) :: seqSpec (pre ++ [rk]) rest

theorem withRetryGo_allFail {α : Type} (op : Nat → Except JsError α) (errs : Nat → JsError)
    (hop : ∀ i, op i = .error (errs i)) (maxRetry : Nat) (label : String) :
    ∀ (fuel i : Nat) (logs : List String) (waits : List Nat) (le : Option JsError),
      withRetryGo op maxRetry label i (fuel + 1) logs waits le =
        ⟨.error (errs (i + fuel)), i + fuel + 1,
          logs ++ (List.range (fuel + 1)).map
            (fun j => retryLogLine label maxRetry (i + j) (errs (i + j))),
          waits ++ (List.range (fuel + 1)).map (fun j => backoff (i + j))⟩ := by
  intro fuel
  induction fuel with
  | zero =>
    intro i logs waits le
    simp [withRetryGo, hop i, List.range_succ]
  | succ f ih =>
    intro i logs waits le
    have hstep : withRetryGo op maxRetry label i (f + 1 + 1) logs waits le =
        withRetryGo op maxRetry label (i + 1) (f + 1)
          (logs ++ [retryLogLine label maxRetry i (errs i)])
          (waits ++ [backoff i]) (some (errs i)) := by
      conv_lhs => rw [withRetryGo]
      rw [hop i]
    rw [hstep, ih (i + 1)]
    have harith : ∀ j : Nat, i + 1 + j = i + (j + 1) := by omega
    simp [List.range_succ_eq_map, List.map_map, Function.comp_def, harith]

theorem withFsRetryGo_allFail {α : Type} (op : Nat → Except JsError α) (errs : Nat → JsError)
    (hop : ∀ i, op i = .error (errs i))
    (hr : ∀ i, isRetryableFirestoreError (errs i) = true) (maxRetry : Nat) (label : String) :
    ∀ (f i : Nat) (logs : List String) (waits : List Nat) (le : Option JsError),
      i + f = maxRetry →
      withFsRetryGo op maxRetry label i (f + 1) logs waits le =
        ⟨.error (errs maxRetry), maxRetry + 1,
          logs ++ (List.range f).map
            (fun j => fsRetryLogLine label maxRetry (i + j) (errs (i + j))) ++
            [noRetryLogLine label maxRetry maxRetry (errs maxRetry)],
          waits ++ (List.range f).map (fun j => backoff (i + j))⟩ := by
  intro f
  induction f with
  | zero =>
    intro i logs waits le hi
    subst hi
    simp [withFsRetryGo, hop i, hr i]
  | succ f ih =>
    intro i logs waits le hi
    have hne : (i == maxRetry) = false := by
      simp only [beq_eq_false_iff_ne, ne_eq]
      omega
    have hstep : withFsRetryGo op maxRetry label i (f + 1 + 1) logs waits le =
        withFsRetryGo op maxRetry label (i + 1) (f + 1)
          (logs ++ [fsRetryLogLine label maxRetry i (errs i)])
          (waits ++ [backoff i]) (some (errs i)) := by
      conv_lhs => rw [withFsRetryGo]
      rw [hop i]
      simp [hr i, hne]
    rw [hstep, ih (i + 1) _ _ _ (by omega)]
    have harith : ∀ j : Nat, i + 1 + j = i + (j + 1) := by omega
    simp [List.range_succ_eq_map, List.map_map, Function.comp_def, harith]

theorem withFsRetryGo_waits_ext {α : Type} (op : Nat → Except JsError α) (maxRetry : Nat)
    (label : String) :
    ∀ (fuel i : Nat) (logs : List String) (waits : List Nat) (le : Option JsError),
      ∃ ext, (withFsRetryGo op maxRetry label i fuel logs waits le).waits = waits ++ ext := by
  intro fuel
  induction fuel with
  | zero => intro i logs waits le; exact ⟨[], by simp [withFsRetryGo]⟩
  | succ f ih =>
    intro i logs waits le
    rw [withFsRetryGo]
    match hop : op i with
    | .ok a => exact ⟨[], by simp⟩
    | .error e =>
      by_cases hc : (!isRetryableFirestoreError e || i == maxRetry) = true
      · exact ⟨[], by simp [hc]⟩
      · obtain ⟨ext, hext⟩ := ih (i + 1)
          (logs ++ [fsRetryLogLine label maxRetry i e]) (waits ++ [backoff i]) (some e)
        exact ⟨backoff i :: ext, by simp [hc, hext]⟩

theorem withFsRetryGo_calls_lb {α : Type} (op : Nat → Except JsError α) (maxRetry : Nat)
    (label : String) :
    ∀ (fuel i : Nat) (logs : List String) (waits : List Nat) (le : Option JsError),
      i ≤ (withFsRetryGo op maxRetry label i fuel logs waits le).calls ∧
        (1 ≤ fuel → i + 1 ≤ (withFsRetryGo op maxRetry label i fuel logs waits le).calls) := by
  intro fuel
  induction fuel with
  | zero =>
    intro i logs waits le
    constructor
    · simp [withFsRetryGo]
    · intro h; omega
  | succ f ih =>
    intro i logs waits le
    rw [withFsRetryGo]
    match hop : op i with
    | .ok a => constructor <;> simp
    | .error e =>
      by_cases hc : (!isRetryableFirestoreError e || i == maxRetry) = true
      · constructor <;> simp [hc]
      · have hnext := (ih (i + 1)
          (logs ++ [fsRetryLogLine label maxRetry i e]) (waits ++ [backoff i]) (some e)).1
        constructor
        · simp [hc]
          omega
        · intro h
          simp [hc]
          omega

/-- C6: for every `maxRetry` N and every operation throwing a
transiently-classified error on every invocation, both retry wrappers
invoke the operation exactly N+1 times; every performed wait after failed
attempt i equals `min(16000, 1000·2^i)` ms (the generic wrapper waits after
every failed attempt, the store-specific one after attempts 0..N-1); every
failed attempt appends exactly one entry under the caller-supplied label to
the caller-supplied log list; and after exhaustion the last error thrown by
the operation is re-thrown. -/
theorem retry_wrappers_exhaust_spec {α : Type} (op : Nat → Except JsError α)
    (errs : Nat → JsError) (maxRetry : Nat) (label : String) (logs0 : List String)
    (hop : ∀ i, op i = .error (errs i)) :
    ((withRetry op maxRetry logs0 label).calls = maxRetry + 1 ∧
      (withRetry op maxRetry logs0 label).result = .error (errs maxRetry) ∧
      (withRetry op maxRetry logs0 label).waits = (List.range (maxRetry + 1)).map backoff ∧
      (withRetry op maxRetry logs0 label).logs =
        logs0 ++ (List.range (maxRetry + 1)).map
          (fun i => retryLogLine label maxRetry i (errs i))) ∧
    ((∀ i, isRetryableFirestoreError (errs i) = true) →
      (withFsRetry op logs0 label maxRetry).calls = maxRetry + 1 ∧
      (withFsRetry op logs0 label maxRetry).result = .error (errs maxRetry) ∧
      (withFsRetry op logs0 label maxRetry).waits = (List.range maxRetry).map backoff ∧
      (withFsRetry op logs0 label maxRetry).logs =
        logs0 ++ (List.range maxRetry).map
          (fun i => fsRetryLogLine label maxRetry i (errs i)) ++
          [noRetryLogLine label maxRetry maxRetry (errs maxRetry)]) := by
  constructor
  · have h := withRetryGo_allFail op errs hop maxRetry label maxRetry 0 logs0 [] none
    simp only [withRetry, h]
    simp
  · intro hr
    have h := withFsRetryGo_allFail op errs hop hr maxRetry label maxRetry 0 logs0 [] none
      (by omega)
    simp only [withFsRetry, h]
    simp

/-- Witness for `retry_wrappers_exhaust_spec`: an always-`UNAVAILABLE`
operation with `maxRetry = 2` is attempted 3 times by both wrappers and the
store-specific wrapper waits 1000 then 2000 ms. -/
theorem retry_wrappers_exhaust_spec_witness :
    (withRetry (fun _ => (.error sampleUnavailableErr : Except JsError Unit)) 2 [] "L").calls = 3 ∧
    (withFsRetry (fun _ => (.error sampleUnavailableErr : Except JsError Unit)) [] "L" 2).calls = 3 ∧
    (withFsRetry (fun _ => (.error sampleUnavailableErr : Except JsError Unit)) [] "L" 2).waits =
      [1000, 2000] := by
  have h := retry_wrappers_exhaust_spec
    (fun _ => (.error sampleUnavailableErr : Except JsError Unit))
    (fun _ => sampleUnavailableErr) 2 "L" [] (fun _ => rfl)
  have hret : isRetryableFirestoreError sampleUnavailableErr = true := by decide
  have h2 := h.2 (fun _ => hret)
  refine ⟨h.1.1, h2.1, ?_⟩
  rw [h2.2.2.1]
  rfl

/-- C4 counterexample: an error whose `code` is the bare word `timeout`
satisfies the claim's transience test (its code contains the substring
`timeout` case-insensitively), yet `isRetryableFirestoreError` classifies
it non-transient and `withFsRetry` propagates it after a single attempt
with no backoff wait. -/
theorem fsRetry_timeout_cex :
    containsSub (jsToLower (JsVal.toStr sampleTimeoutErr.code)) "timeout" = true ∧
    isRetryableFirestoreError sampleTimeoutErr = false ∧
    (withFsRetry (fun _ => (.error sampleTimeoutErr : Except JsError Unit)) [] "L" 4).calls = 1 ∧
    (withFsRetry (fun _ => (.error sampleTimeoutErr : Except JsError Unit)) [] "L" 4).waits = [] ∧
    (withFsRetry (fun _ => (.error sampleTimeoutErr : Except JsError Unit)) [] "L" 4).result =
      .error sampleTimeoutErr :=
  ⟨by decide, by decide, rfl, rfl, rfl⟩

/-- C4 (amended): `withFsRetry` retries exactly when
`isRetryableFirestoreError` accepts the thrown error — that is, when the
lowercased first truthy of `code`/`status`/`statusCode` contains
`unavailable`, `deadline` or `etimedout` or equals `503`/`504`, or, only
when that code string is empty and the message non-empty, when the
uppercased message contains `UNAVAILABLE`, `DEADLINE_EXCEEDED` or
`ETIMEDOUT`; every error not so classified propagates to the caller after
the single failed attempt, with no further attempt and no backoff wait,
while a classified error is followed by a `backoff 0` wait and at least one
further attempt. -/
theorem withFsRetry_classifier_gate (e : JsError) (op : Nat → Except JsError Unit)
    (maxRetry : Nat) (label : String) (logs0 : List String)
    (hop : op 0 = .error e) (hm : 0 < maxRetry) :
    (isRetryableFirestoreError e = false →
      withFsRetry op logs0 label maxRetry =
        ⟨.error e, 1, logs0 ++ [noRetryLogLine label maxRetry 0 e], []⟩) ∧
    (isRetryableFirestoreError e = true →
      2 ≤ (withFsRetry op logs0 label maxRetry).calls ∧
      ∃ ext, (withFsRetry op logs0 label maxRetry).waits = backoff 0 :: ext) := by
  have hne : (0 == maxRetry) = false := by
    simp only [beq_eq_false_iff_ne, ne_eq]
    omega
  constructor
  · intro hf
    simp only [withFsRetry]
    conv_lhs => rw [withFsRetryGo]
    rw [hop]
    simp [hf]
  · intro ht
    have hgo : withFsRetry op logs0 label maxRetry =
        withFsRetryGo op maxRetry label 1 maxRetry
          (logs0 ++ [fsRetryLogLine label maxRetry 0 e]) [backoff 0] (some e) := by
      simp only [withFsRetry]
      conv_lhs => rw [withFsRetryGo]
      rw [hop]
      simp [ht, hne]
    rw [hgo]
    constructor
    · exact (withFsRetryGo_calls_lb op maxRetry label maxRetry 1
        (logs0 ++ [fsRetryLogLine label maxRetry 0 e]) [backoff 0] (some e)).2 (by omega)
    · obtain ⟨ext, hext⟩ := withFsRetryGo_waits_ext op maxRetry label maxRetry 1
        (logs0 ++ [fsRetryLogLine label maxRetry 0 e]) [backoff 0] (some e)
      exact ⟨ext, by simpa using hext⟩

/-- Witness for `withFsRetry_classifier_gate` at a permission-denied error
and at an `UNAVAILABLE` error with `maxRetry = 4`. -/
theorem withFsRetry_classifier_gate_witness :
    (withFsRetry (fun _ => (.error (mkError "permission denied") : Except JsError Unit))
        [] "L" 4 =
      ⟨.error (mkError "permission denied"), 1,
        [noRetryLogLine "L" 4 0 (mkError "permission denied")], []⟩) ∧
    2 ≤ (withFsRetry (fun _ => (.error sampleUnavailableErr : Except JsError Unit))
        [] "L" 4).calls := by
  constructor
  · have h := (withFsRetry_classifier_gate (mkError "permission denied")
      (fun _ => .error (mkError "permission denied")) 4 "L" [] rfl (by omega)).1 (by decide)
    simpa using h
  · exact ((withFsRetry_classifier_gate sampleUnavailableErr
      (fun _ => .error sampleUnavailableErr) 4 "L" [] rfl (by omega)).2 (by decide)).1

/-- C5: the acquisition ladder advances to the next tier only when the
current tier returned zero rows, and the first tier returning at least one
row supplies the entire result exclusively: a non-empty tier a means tiers
b and c are never invoked and the result is exactly tier a's; a non-empty
tier b means tier c is never invoked and the result is exactly tier b's;
otherwise the result is exactly tier c's rows (with the organizer fallback
`fh.organizer || organizer`), and rows of distinct tiers are never merged
when the force-rescue path does not run. -/
theorem ladder_escalation (force : Bool) (cat : Cat)
    (tierA tierB tierC : Except JsError TierResp)
    (altApi altBrowser : Cat → Except JsError TierResp) :
    (∀ ra, tierA = .ok ra → ra.results ≠ [] →
      runLadder force cat tierA tierB tierC altApi altBrowser =
        .ok ⟨ra, false, false, false⟩) ∧
    (∀ oa rb, tierA = .ok ⟨oa, []⟩ → tierB = .ok rb → rb.results ≠ [] →
      runLadder force cat tierA tierB tierC altApi altBrowser =
        .ok ⟨rb, true, false, false⟩) ∧
    (∀ oa ob rc, tierA = .ok ⟨oa, []⟩ → tierB = .ok ⟨ob, []⟩ → tierC = .ok rc →
      rc.results ≠ [] →
      runLadder force cat tierA tierB tierC altApi altBrowser =
        .ok ⟨⟨jsOrStr rc.organizer ob, rc.results⟩, true, true, false⟩) ∧
    (∀ oa ob rc, tierA = .ok ⟨oa, []⟩ → tierB = .ok ⟨ob, []⟩ → tierC = .ok rc →
      rc.results = [] → force = false →
      runLadder force cat tierA tierB tierC altApi altBrowser =
        .ok ⟨⟨jsOrStr rc.organizer ob, []⟩, true, true, false⟩) := by
  refine ⟨?_, ?_, ?_, ?_⟩
  · rintro ⟨orgA, resA⟩ rfl hne
    cases hres : resA with
    | nil => exact absurd (by simpa using hres) hne
    | cons a t => simp [runLadder, hres]
  · rintro oa ⟨orgB, resB⟩ rfl rfl hne
    cases hres : resB with
    | nil => exact absurd (by simpa using hres) hne
    | cons a t => simp [runLadder, hres]
  · rintro oa ob ⟨orgC, resC⟩ rfl rfl rfl hne
    cases hres : resC with
    | nil => exact absurd (by simpa using hres) hne
    | cons a t => simp [runLadder, hres]
  · rintro oa ob ⟨orgC, resC⟩ rfl rfl rfl hres rfl
    subst hres
    simp [runLadder]

/-- Witness for `ladder_escalation`: a non-empty tier a wins exclusively on
a concrete instance. -/
theorem ladder_escalation_witness :
    runLadder false Cat.junior (.ok ⟨some "shopA", [mkRowRP 1 "p1"]⟩)
      (.ok ⟨some "shopB", [mkRowRP 2 "p2"]⟩) (.ok ⟨none, [mkRowRP 3 "p3"]⟩)
      (fun _ => .ok ⟨none, []⟩) (fun _ => .ok ⟨none, []⟩) =
      .ok ⟨⟨some "shopA", [mkRowRP 1 "p1"]⟩, false, false, false⟩ :=
  (ladder_escalation false Cat.junior (.ok ⟨some "shopA", [mkRowRP 1 "p1"]⟩)
      (.ok ⟨some "shopB", [mkRowRP 2 "p2"]⟩) (.ok ⟨none, [mkRowRP 3 "p3"]⟩)
      (fun _ => .ok ⟨none, []⟩) (fun _ => .ok ⟨none, []⟩)).1
    ⟨some "shopA", [mkRowRP 1 "p1"]⟩ rfl (by decide)

theorem buildWritesGo_spec (extract : String → Option String) (eventDocId : String)
    (organizer : Option String) (cat : Cat) :
    ∀ (results : List NRow) (seq : Int → Nat) (pre : List Int),
      (∀ k, seq k = pre.count k) →
      (buildWritesGo extract eventDocId organizer cat results seq).map
          (fun w => (w.1, w.2.rank, w.2.positionIndex)) =
        (seqSpec pre (acceptedRanks results)).map
          (fun p => (ridOf eventDocId p.1 p.2, p.1, p.2)) := by
  intro results
  induction results with
  | nil => intro seq pre hseq; simp [buildWritesGo, acceptedRanks, seqSpec]
  | cons r rest ih =>
    intro seq pre hseq
    cases hp : jsOrNullStr r.player_id with
    | none =>
      have hacc : acceptRow r = false := by simp [acceptRow, hp]
      have h2 : acceptedRanks (r :: rest) = acceptedRanks rest := by
        simp [acceptedRanks, List.filter_cons, hacc]
      simp only [buildWritesGo, hp, h2]
      exact ih seq pre hseq
    | some pid =>
      by_cases hrk : r.rank.getD (-1) < 0
      · have hacc : acceptRow r = false := by
          simp [acceptRow, hp]
          omega
        have h2 : acceptedRanks (r :: rest) = acceptedRanks rest := by
          simp [acceptedRanks, List.filter_cons, hacc]
        simp only [buildWritesGo, hp, h2, if_pos hrk]
        exact ih seq pre hseq
      · have hacc : acceptRow r = true := by
          simp [acceptRow, hp]
          omega
        have h2 : acceptedRanks (r :: rest) = r.rank.getD (-1) :: acceptedRanks rest := by
          simp [acceptedRanks, List.filter_cons, hacc]
        have hseq2 : ∀ k, (fun k => if k = r.rank.getD (-1)
              then seq (r.rank.getD (-1)) + 1 else seq k) k =
            (pre ++ [r.rank.getD (-1)]).count k := by
          intro k
          by_cases hk : k = r.rank.getD (-1) <;>
            simp [hk, hseq k, List.count_append, List.count_cons, hseq]
        simp only [buildWritesGo, hp, h2, if_neg hrk, seqSpec, List.map_cons]
        rw [ih _ _ hseq2, hseq, ridOf]

/-- C7: the persistence loop assigns every accepted row (truthy player id,
valid rank) the per-rank sequence equal to the number of earlier accepted
rows of the same rank — a counter starting at 0 per distinct rank — and the
deterministic document id `rank-<eventKey>-<rank>-<zero-padded sequence>`,
so a rerun over identical acquired rows produces identical ids (the batch
is a pure function of the inputs) and overwrites instead of duplicating; in
particular, rows with ranks [1,2,3,3,5,9] get sequences [0,0,0,1,0,0]. -/
theorem collector_rank_sequence_ids :
    (∀ (extract : String → Option String) (eventDocId : String)
        (organizer : Option String) (cat : Cat) (results : List NRow),
      (buildWrites extract eventDocId organizer cat results).map
          (fun w => (w.1, w.2.rank, w.2.positionIndex)) =
        (seqSpec [] (acceptedRanks results)).map
          (fun p => (ridOf eventDocId p.1 p.2, p.1, p.2))) ∧
    (buildWrites (fun _ => none) "event-20250307-open-01" none Cat.openC
        [mkRowRP 1 "a", mkRowRP 2 "b", mkRowRP 3 "c", mkRowRP 3 "d",
          mkRowRP 5 "e", mkRowRP 9 "f"]).map (fun w => w.2.positionIndex) =
      [0, 0, 0, 1, 0, 0] := by
  constructor
  · intro extract eventDocId organizer cat results
    exact buildWritesGo_spec extract eventDocId organizer cat results (fun _ => 0) []
      (by simp)
  · decide

/-- C3 counterexample: an event whose ladder succeeds with zero rows is
nevertheless marked collected — the `rankingsScraped` update runs
unconditionally after the (skipped) batch commit, so an event with no
persisted rows is still marked. -/
theorem collector_marks_empty_event_cex :
    (saveRankingsForEventLocal (fun _ => none) "event-20250307-open-01" Cat.openC false
        (.ok ⟨none, []⟩) (.ok ⟨none, []⟩) (.ok ⟨none, []⟩)
        (fun _ => .ok ⟨none, []⟩) (fun _ => .ok ⟨none, []⟩) (.ok ()) (.ok ())).marked =
      true ∧
    (saveRankingsForEventLocal (fun _ => none) "event-20250307-open-01" Cat.openC false
        (.ok ⟨none, []⟩) (.ok ⟨none, []⟩) (.ok ⟨none, []⟩)
        (fun _ => .ok ⟨none, []⟩) (fun _ => .ok ⟨none, []⟩) (.ok ()) (.ok ())).writes =
      [] ∧
    (saveRankingsForEventLocal (fun _ => none) "event-20250307-open-01" Cat.openC false
        (.ok ⟨none, []⟩) (.ok ⟨none, []⟩) (.ok ⟨none, []⟩)
        (fun _ => .ok ⟨none, []⟩) (fun _ => .ok ⟨none, []⟩) (.ok ()) (.ok ())).committed =
      false :=
  ⟨rfl, rfl, rfl⟩

/-- C3 (amended): when at least one row is persisted, the event is marked
collected only after a successful batch commit (a commit failure propagates
before the mark); but the mark is unconditional once the ladder and the
conditional commit succeed, so an event with zero persisted rows is also
marked collected. -/
theorem collector_mark_semantics (extract : String → Option String) (eventDocId : String)
    (cat : Cat) (force : Bool) (tierA tierB tierC : Except JsError TierResp)
    (altApi altBrowser : Cat → Except JsError TierResp)
    (commitRes markRes : Except JsError Unit) :
    ((saveRankingsForEventLocal extract eventDocId cat force tierA tierB tierC
          altApi altBrowser commitRes markRes).marked = true →
      0 < (saveRankingsForEventLocal extract eventDocId cat force tierA tierB tierC
          altApi altBrowser commitRes markRes).writes.length →
      (saveRankingsForEventLocal extract eventDocId cat force tierA tierB tierC
          altApi altBrowser commitRes markRes).committed = true) ∧
    (∀ lad, runLadder force cat tierA tierB tierC altApi altBrowser = .ok lad →
      markRes = .ok () →
      buildWrites extract eventDocId lad.resp.organizer cat lad.resp.results = [] →
      (saveRankingsForEventLocal extract eventDocId cat force tierA tierB tierC
          altApi altBrowser commitRes markRes).marked = true ∧
      (saveRankingsForEventLocal extract eventDocId cat force tierA tierB tierC
          altApi altBrowser commitRes markRes).committed = false) := by
  constructor
  · intro hmark hw
    match hlad : runLadder force cat tierA tierB tierC altApi altBrowser with
    | .error e => simp [saveRankingsForEventLocal, hlad] at hmark
    | .ok lad =>
      by_cases hlen :
          0 < (buildWrites extract eventDocId lad.resp.organizer cat lad.resp.results).length
      · match hcommit : commitRes with
        | .error e => simp [saveRankingsForEventLocal, hlad, hcommit, if_pos hlen] at hmark
        | .ok u =>
          match hmk : markRes with
          | .error e2 =>
            simp [saveRankingsForEventLocal, hlad, hcommit, hmk, if_pos hlen] at hmark
          | .ok u2 =>
            simp [saveRankingsForEventLocal, hlad, hcommit, hmk, if_pos hlen]
      · have hw2 : 0 <
            (buildWrites extract eventDocId lad.resp.organizer cat lad.resp.results).length := by
          match hmk : markRes with
          | .error e2 =>
            simpa [saveRankingsForEventLocal, hlad, hmk, if_neg hlen] using hw
          | .ok u2 =>
            simpa [saveRankingsForEventLocal, hlad, hmk, if_neg hlen] using hw
        exact absurd hw2 hlen
  · rintro lad hlad rfl hempty
    simp only [saveRankingsForEventLocal, hlad]
    simp [hempty]

/-- Witness for `collector_mark_semantics`: applying it to a concrete
all-empty acquisition shows the zero-row event marked and uncommitted. -/
theorem collector_mark_semantics_witness :
    (saveRankingsForEventLocal (fun _ => none) "event-20250308-junior-01" Cat.junior false
        (.ok ⟨some "shop", []⟩) (.ok ⟨none, []⟩) (.ok ⟨none, []⟩)
        (fun _ => .ok ⟨none, []⟩) (fun _ => .ok ⟨none, []⟩) (.ok ()) (.ok ())).marked =
      true ∧
    (saveRankingsForEventLocal (fun _ => none) "event-20250308-junior-01" Cat.junior false
        (.ok ⟨some "shop", []⟩) (.ok ⟨none, []⟩) (.ok ⟨none, []⟩)
        (fun _ => .ok ⟨none, []⟩) (fun _ => .ok ⟨none, []⟩) (.ok ()) (.ok ())).committed =
      false :=
  (collector_mark_semantics (fun _ => none) "event-20250308-junior-01" Cat.junior false
      (.ok ⟨some "shop", []⟩) (.ok ⟨none, []⟩) (.ok ⟨none, []⟩)
      (fun _ => .ok ⟨none, []⟩) (fun _ => .ok ⟨none, []⟩) (.ok ()) (.ok ())).2
    ⟨⟨none, []⟩, true, true, false⟩ rfl rfl rfl

theorem collectPage_ranks (extract : String → Option String) (plan : List Nat) :
    ∀ (hrefs seen : List String) (acc : List NRow),
      acc.map (fun r => r.rank) = (plan.take acc.length).map (fun k => some (Int.ofNat k)) →
      (collectPage extract plan hrefs seen acc).1.map (fun r => r.rank) =
        (plan.take (collectPage extract plan hrefs seen acc).1.length).map
          (fun k => some (Int.ofNat k)) := by
  intro hrefs
  induction hrefs with
  | nil => intro seen acc hacc; simpa [collectPage] using hacc
  | cons href rest ih =>
    intro seen acc hacc
    rw [collectPage]
    cases hx : jsOrNullStr (extract href) with
    | none => exact ih seen acc hacc
    | some did =>
      by_cases hseen : seen.contains href
      · simp only [hseen]
        exact ih seen acc hacc
      · simp only [hseen]
        cases hget : plan.get? acc.length with
        | none => simpa using hacc
        | some rk =>
          have hlt : acc.length < plan.length := by
            have := List.get?_eq_some.mp hget
            exact this.choose
          have hacc2 : (acc ++ [mkHtmlRow rk did href]).map (fun r => r.rank) =
              (plan.take (acc ++ [mkHtmlRow rk did href]).length).map
                (fun k => some (Int.ofNat k)) := by
            have htake : plan.take (acc.length + 1) =
                plan.take acc.length ++ [rk] := by
              rw [List.take_succ]
              have : plan[acc.length]? = some rk := by
                rw [← List.get?_eq_getElem?]
                exact hget
              simp [this]
            simp [htake, hacc, mkHtmlRow]
          by_cases h8 : 8 ≤ (acc ++ [mkHtmlRow rk did href]).length
          · simp only [h8, if_pos, Bool.true_and]
            simpa [h8] using hacc2
          · simp only [h8]
            simpa [h8] using ih (href :: seen) (acc ++ [mkHtmlRow rk did href]) hacc2

theorem collectPage_length_le (extract : String → Option String) (plan : List Nat) :
    ∀ (hrefs seen : List String) (acc : List NRow),
      acc.length ≤ plan.length →
      (collectPage extract plan hrefs seen acc).1.length ≤ plan.length := by
  intro hrefs
  induction hrefs with
  | nil => intro seen acc hle; simpa [collectPage] using hle
  | cons href rest ih =>
    intro seen acc hle
    rw [collectPage]
    cases hx : jsOrNullStr (extract href) with
    | none => exact ih seen acc hle
    | some did =>
      by_cases hseen : seen.contains href
      · simp only [hseen]
        exact ih seen acc hle
      · simp only [hseen]
        cases hget : plan.get? acc.length with
        | none => simpa using hle
        | some rk =>
          have hlt : acc.length < plan.length := by
            have := List.get?_eq_some.mp hget
            exact this.choose
          by_cases h8 : 8 ≤ (acc ++ [mkHtmlRow rk did href]).length
          · simp only [h8]
            simp
            omega
          · simp only [h8]
            exact ih (href :: seen) (acc ++ [mkHtmlRow rk did href]) (by simp; omega)

/-- C1 counterexample: with two accepted deck links on page 1, the second
accepted link receives rank 2 — the page-1 bucket list of the code is
`[1,2,3,3,5,5,5,5]`, and rank 2 does not even occur in the claimed bucket
list `{1,1,1,3,3,3,3,3}`. -/
theorem html_tier_bucket_cex :
    (fetchEventRankingsViaHtml (fun h => some h) "https://p/event/detail/99" Cat.junior
        ["a", "b"] []).map (fun t => t.results.map (fun r => r.rank)) =
      .ok [some 1, some 2] ∧
    ¬((2 : Int) ∈ ([1, 1, 1, 3, 3, 3, 3, 3] : List Int)) :=
  ⟨rfl, by decide⟩

/-- C1 (amended): in the HTML fallback tier, the i-th accepted deck link of
page 1 is assigned the i-th entry of the fixed bucket list
`[1,2,3,3,5,5,5,5]` (at most 8 links), and page 2 — fetched only for
category Open — assigns rank 9 to each of its up to 8 accepted links. -/
theorem html_tier_rank_buckets (extract : String → Option String) (detailUrl eid : String)
    (page0Links page1Links : List String)
    (hurl : extractEventHoldingId detailUrl = some eid) :
    (fetchEventRankingsViaHtml extract detailUrl .openC page0Links page1Links =
      .ok ⟨none, (collectPage extract assignRanksPage0 page0Links [] []).1 ++
        (collectPage extract assignRanksPage1 page1Links
          (collectPage extract assignRanksPage0 page0Links [] []).2 []).1⟩) ∧
    (∀ cat, cat ≠ Cat.openC →
      fetchEventRankingsViaHtml extract detailUrl cat page0Links page1Links =
        .ok ⟨none, (collectPage extract assignRanksPage0 page0Links [] []).1⟩) ∧
    ((collectPage extract assignRanksPage0 page0Links [] []).1.length ≤ 8 ∧
      (collectPage extract assignRanksPage0 page0Links [] []).1.map (fun r => r.rank) =
        (assignRanksPage0.take
          (collectPage extract assignRanksPage0 page0Links [] []).1.length).map
          (fun k => some (Int.ofNat k))) ∧
    (∀ seen, (collectPage extract assignRanksPage1 page1Links seen []).1.length ≤ 8 ∧
      ∀ row ∈ (collectPage extract assignRanksPage1 page1Links seen []).1,
        row.rank = some 9) := by
  refine ⟨?_, ?_, ⟨?_, ?_⟩, ?_⟩
  · simp [fetchEventRankingsViaHtml, hurl]
  · intro cat hc
    simp [fetchEventRankingsViaHtml, hurl, hc]
  · simpa using collectPage_length_le extract assignRanksPage0 page0Links [] [] (by simp)
  · exact collectPage_ranks extract assignRanksPage0 page0Links [] [] (by simp)
  · intro seen
    constructor
    · simpa using collectPage_length_le extract assignRanksPage1 page1Links seen [] (by simp)
    · intro row hrow
      have hmap := collectPage_ranks extract assignRanksPage1 page1Links seen [] (by simp)
      have h1 : row.rank ∈
          (collectPage extract assignRanksPage1 page1Links seen []).1.map
            (fun r => r.rank) := List.mem_map_of_mem _ hrow
      rw [hmap] at h1
      have hrep : assignRanksPage1 = List.replicate 8 9 := rfl
      rw [hrep, List.take_replicate, List.map_replicate] at h1
      exact List.eq_of_mem_replicate h1

/-- Witness for `html_tier_rank_buckets` on a concrete Open event with
three accepted page-1 links and two page-2 links. -/
theorem html_tier_rank_buckets_witness :
    fetchEventRankingsViaHtml (fun h => some h) "https://p/event/detail/7" Cat.openC
        ["a", "b", "c"] ["d", "e"] =
      .ok ⟨none, (collectPage (fun h => some h) assignRanksPage0 ["a", "b", "c"] [] []).1 ++
        (collectPage (fun h => some h) assignRanksPage1 ["d", "e"]
          (collectPage (fun h => some h) assignRanksPage0 ["a", "b", "c"] [] []).2 []).1⟩ :=
  (html_tier_rank_buckets (fun h => some h) "https://p/event/detail/7" "7"
    ["a", "b", "c"] ["d", "e"] (by decide)).1

/-- C2 counterexample: for an event whose detail URL parses fine, a
rejected page-1 fetch inside tier a is not absorbed as zero rows — the
rejection propagates out of the tier (and it is not the structural
detail-URL error), and it aborts the per-event collection loop. -/
theorem api_tier_reject_propagates_cex :
    extractEventHoldingId "https://players.pokemon-card.com/event/detail/12345" =
      some "12345" ∧
    fetchEventRankingsViaApi "https://players.pokemon-card.com/event/detail/12345"
        Cat.junior (.reject sampleNetworkErr)
        (.resp true "application/json" (.ok ⟨none, some []⟩)) =
      .error sampleNetworkErr ∧
    sampleNetworkErr ≠
      structuralError "https://players.pokemon-card.com/event/detail/12345" ∧
    runRankingsLoop (fun _ => none) false
        [⟨"event-20250307-junior-01",
          "https://players.pokemon-card.com/event/detail/12345", some Cat.junior,
          .reject sampleNetworkErr, .resp true "application/json" (.ok ⟨none, some []⟩),
          .ok ⟨none, []⟩, .ok ⟨none, []⟩, fun _ => .ok ⟨none, []⟩,
          fun _ => .ok ⟨none, []⟩, .ok (), .ok ()⟩] =
      .error sampleNetworkErr :=
  ⟨by decide, rfl, by decide, rfl⟩

/-- C2 (amended): tier a absorbs as zero rows an HTTP response with a
non-OK status or a non-JSON content type (and, on page 2, a body whose
JSON parse fails), but it propagates a rejected fetch promise (page 1 or
page 2) and a page-1 body that fails to parse despite a JSON content
type, in addition to the structural error for an unusable detail URL; an
error escaping the tier aborts the per-event collection loop. -/
theorem api_tier_error_semantics :
    (∀ (url : String) (cat : Cat) (n1 n2 : FetchResult),
      extractEventHoldingId url = none →
      fetchEventRankingsViaApi url cat n1 n2 = .error (structuralError url)) ∧
    (∀ (url eid : String) (cat : Cat) (e : JsError) (n2 : FetchResult),
      extractEventHoldingId url = some eid →
      fetchEventRankingsViaApi url cat (.reject e) n2 = .error e) ∧
    (∀ (url eid : String) (cat : Cat) (ct : String) (body : Except JsError ApiJson)
        (n2 : FetchResult),
      extractEventHoldingId url = some eid →
      fetchEventRankingsViaApi url cat (.resp false ct body) n2 = .ok ⟨none, []⟩) ∧
    (∀ (url eid : String) (cat : Cat) (ct : String) (body : Except JsError ApiJson)
        (n2 : FetchResult),
      extractEventHoldingId url = some eid →
      containsSub ct "application/json" = false →
      fetchEventRankingsViaApi url cat (.resp true ct body) n2 = .ok ⟨none, []⟩) ∧
    (∀ (url eid : String) (cat : Cat) (ct : String) (e : JsError) (n2 : FetchResult),
      extractEventHoldingId url = some eid →
      containsSub ct "application/json" = true →
      fetchEventRankingsViaApi url cat (.resp true ct (.error e)) n2 = .error e) ∧
    (∀ (url eid ct : String) (j : ApiJson) (e : JsError),
      extractEventHoldingId url = some eid →
      containsSub ct "application/json" = true →
      fetchEventRankingsViaApi url .openC (.resp true ct (.ok j)) (.reject e) = .error e) ∧
    (∀ (url eid ct : String) (j : ApiJson) (ok2 : Bool) (ct2 : String) (e2 : JsError),
      extractEventHoldingId url = some eid →
      containsSub ct "application/json" = true →
      fetchEventRankingsViaApi url .openC (.resp true ct (.ok j))
          (.resp ok2 ct2 (.error e2)) =
        .ok ⟨jsOrNullStr j.shopName,
          (((j.results.getD []).filter allowedRank).take 8).map normalizeRow⟩) ∧
    (∀ (extract : String → Option String) (force : Bool) (e : EventCtx) (c : Cat)
        (rest : List EventCtx) (err : JsError),
      e.cat = some c →
      (processEvent extract force e c).result = .error err →
      runRankingsLoop extract force (e :: rest) = .error err) := by
  refine ⟨?_, ?_, ?_, ?_, ?_, ?_, ?_, ?_⟩
  · intro url cat n1 n2 h
    simp [fetchEventRankingsViaApi, h]
  · intro url eid cat e n2 h
    simp [fetchEventRankingsViaApi, h]
  · intro url eid cat ct body n2 h
    simp [fetchEventRankingsViaApi, h]
  · intro url eid cat ct body n2 h hct
    simp [fetchEventRankingsViaApi, h, hct]
  · intro url eid cat ct e n2 h hct
    simp [fetchEventRankingsViaApi, h, hct]
  · intro url eid ct j e h hct
    simp [fetchEventRankingsViaApi, h, hct]
  · intro url eid ct j ok2 ct2 e2 h hct
    cases ok2 <;> simp [fetchEventRankingsViaApi, h, hct]
  · intro extract force e c rest err hc herr
    simp [runRankingsLoop, hc, herr]

/-- Witness for `api_tier_error_semantics`: a rejected page-1 fetch
propagates at a concrete event. -/
theorem api_tier_error_semantics_witness :
    fetchEventRankingsViaApi "https://players.pokemon-card.com/event/detail/777"
        Cat.senior (.reject (mkError "socket hang up"))
        (.resp true "application/json" (.ok ⟨none, some []⟩)) =
      .error (mkError "socket hang up") :=
  api_tier_error_semantics.2.1 "https://players.pokemon-card.com/event/detail/777" "777"
    Cat.senior (mkError "socket hang up")
    (.resp true "application/json" (.ok ⟨none, some []⟩)) (by decide)

theorem setDoc_fresh (store : List EvDoc) (d : EvDoc)
    (h : ∀ x ∈ store, x.docId ≠ d.docId) : setDoc store d = store ++ [d] := by
  induction store with
  | nil => rfl
  | cons x rest ih =>
    have hx : (x.docId == d.docId) = false := by
      simp only [beq_eq_false_iff_ne, ne_eq]
      exact h x (by simp)
    simp only [setDoc, hx]
    simp [ih (fun y hy => h y (by simp [hy]))]

theorem applyBatch_fresh (store : List EvDoc) :
    ∀ (batch : List EvDoc),
      (∀ b ∈ batch, ∀ x ∈ store, x.docId ≠ b.docId) →
      (batch.map (fun d => d.docId)).Nodup →
      applyBatch store batch = store ++ batch := by
  intro batch
  induction batch generalizing store with
  | nil => intro hfresh hnodup; simp [applyBatch]
  | cons b rest ih =>
    intro hfresh hnodup
    have hstep : setDoc store b = store ++ [b] :=
      setDoc_fresh store b (fun x hx => hfresh b (by simp) x hx)
    have hrest : applyBatch (store ++ [b]) rest = (store ++ [b]) ++ rest := by
      apply ih (store ++ [b])
      · intro c hc x hx
        rcases List.mem_append.mp hx with hx1 | hx1
        · exact hfresh c (by simp [hc]) x hx1
        · have hb : x = b := by simpa using hx1
          subst hb
          have hnd := (List.nodup_cons.mp hnodup).1
          intro he
          exact hnd (by
            show x.docId ∈ List.map (fun d => d.docId) rest
            rw [he]
            exact List.mem_map_of_mem _ hc)
      · exact (List.nodup_cons.mp hnodup).2
    calc applyBatch store (b :: rest) = applyBatch (setDoc store b) rest := rfl
      _ = applyBatch (store ++ [b]) rest := by rw [hstep]
      _ = (store ++ [b]) ++ rest := hrest
      _ = store ++ b :: rest := by simp

theorem mem_setDoc_self (d : EvDoc) : ∀ (store : List EvDoc), d ∈ setDoc store d := by
  intro store
  induction store with
  | nil => simp [setDoc]
  | cons x rest ih =>
    rw [setDoc]
    by_cases h : (x.docId == d.docId) = true
    · simp [h]
    · rw [if_neg h]
      exact List.mem_cons_of_mem x ih

theorem mem_setDoc_of_ne (x d : EvDoc) (hne : x.docId ≠ d.docId) :
    ∀ (store : List EvDoc), x ∈ store → x ∈ setDoc store d := by
  intro store
  induction store with
  | nil => intro h; cases h
  | cons y rest ih =>
    intro hmem
    rcases List.mem_cons.mp hmem with rfl | hmem2
    · rw [setDoc]
      have h : (x.docId == d.docId) = false := by simpa using hne
      rw [h]
      simp
    · rw [setDoc]
      by_cases h : (y.docId == d.docId) = true
      · rw [if_pos h]
        exact List.mem_cons_of_mem d hmem2
      · rw [if_neg h]
        exact List.mem_cons_of_mem y (ih hmem2)

theorem probeLoop_batch_ext (store : List EvDoc) :
    ∀ (events : List ProbeEvent) (seq : Cat → Nat) (batch : List EvDoc) (n : Nat),
      ∃ ext, (probeLoop store events seq batch n).1 = batch ++ ext ∧
        (probeLoop store events seq batch n).2 = n + ext.length := by
  intro events
  induction events with
  | nil => intro seq batch n; exact ⟨[], by simp [probeLoop]⟩
  | cons ev rest ih =>
    intro seq batch n
    cases hx : jsOrNullStr ev.detailUrl with
    | none => simp only [probeLoop, hx]; exact ih seq batch n
    | some u =>
      simp only [probeLoop, hx]
      by_cases hdup : (store.any fun d => d.detailUrl == u) = true
      · rw [if_pos hdup]
        exact ih seq batch n
      · rw [if_neg hdup]
        obtain ⟨ext, h1, h2⟩ := ih
          (fun c => if c = toCatCode ev.cityLeagueCategory
            then seq (toCatCode ev.cityLeagueCategory) + 1 else seq c)
          (batch ++ [⟨"event-" ++ ev.dateYmd ++ "-" ++ (toCatCode ev.cityLeagueCategory).code ++
            "-" ++ padStart2 (seq (toCatCode ev.cityLeagueCategory) + 1),
            ev.title, ev.dateYmd, jsTrim ev.dateOnly, u, ev.cityLeagueCategory, false⟩])
          (n + 1)
        refine ⟨⟨"event-" ++ ev.dateYmd ++ "-" ++ (toCatCode ev.cityLeagueCategory).code ++
            "-" ++ padStart2 (seq (toCatCode ev.cityLeagueCategory) + 1),
            ev.title, ev.dateYmd, jsTrim ev.dateOnly, u, ev.cityLeagueCategory, false⟩ :: ext,
          ?_, ?_⟩
        · rw [h1]
          simp
        · rw [h2]
          simp
          omega

theorem probeLoop_covers (store : List EvDoc) :
    ∀ (events : List ProbeEvent) (seq : Cat → Nat) (batch : List EvDoc) (n : Nat)
      (ev : ProbeEvent) (u : String),
      ev ∈ events → jsOrNullStr ev.detailUrl = some u →
      (∃ d ∈ store, d.detailUrl = u) ∨
        (∃ d ∈ (probeLoop store events seq batch n).1, d.detailUrl = u) := by
  intro events
  induction events with
  | nil => intro seq batch n ev u hmem; cases hmem
  | cons ev0 rest ih =>
    intro seq batch n ev u hmem hu
    rcases List.mem_cons.mp hmem with rfl | hmem2
    · simp only [probeLoop, hu]
      by_cases hdup : (store.any fun d => d.detailUrl == u) = true
      · left
        obtain ⟨d, hd, hdu⟩ := List.any_eq_true.mp hdup
        exact ⟨d, hd, by simpa using hdu⟩
      · rw [if_neg hdup]
        right
        obtain ⟨ext, h1, _⟩ := probeLoop_batch_ext store rest
          (fun c => if c = toCatCode ev.cityLeagueCategory
            then seq (toCatCode ev.cityLeagueCategory) + 1 else seq c)
          (batch ++ [⟨"event-" ++ ev.dateYmd ++ "-" ++ (toCatCode ev.cityLeagueCategory).code ++
            "-" ++ padStart2 (seq (toCatCode ev.cityLeagueCategory) + 1),
            ev.title, ev.dateYmd, jsTrim ev.dateOnly, u, ev.cityLeagueCategory, false⟩])
          (n + 1)
        rw [h1]
        exact ⟨⟨"event-" ++ ev.dateYmd ++ "-" ++ (toCatCode ev.cityLeagueCategory).code ++
            "-" ++ padStart2 (seq (toCatCode ev.cityLeagueCategory) + 1),
            ev.title, ev.dateYmd, jsTrim ev.dateOnly, u, ev.cityLeagueCategory, false⟩,
          by simp, rfl⟩
    · cases hx : jsOrNullStr ev0.detailUrl with
      | none => simp only [probeLoop, hx]; exact ih seq batch n ev u hmem2 hu
      | some u0 =>
        simp only [probeLoop, hx]
        by_cases hdup : (store.any fun d => d.detailUrl == u0) = true
        · rw [if_pos hdup]
          exact ih seq batch n ev u hmem2 hu
        · rw [if_neg hdup]
          exact ih _ _ _ ev u hmem2 hu

theorem probeLoop_all_dup (store : List EvDoc) :
    ∀ (events : List ProbeEvent) (seq : Cat → Nat) (batch : List EvDoc) (n : Nat),
      (∀ ev ∈ events, ∀ u, jsOrNullStr ev.detailUrl = some u →
        (store.any fun d => d.detailUrl == u) = true) →
      probeLoop store events seq batch n = (batch, n) := by
  intro events
  induction events with
  | nil => intro seq batch n _; rfl
  | cons ev rest ih =>
    intro seq batch n hall
    cases hx : jsOrNullStr ev.detailUrl with
    | none =>
      simp only [probeLoop, hx]
      exact ih seq batch n (fun e he => hall e (by simp [he]))
    | some u =>
      simp only [probeLoop, hx]
      rw [if_pos (hall ev (by simp) u hx)]
      exact ih seq batch n (fun e he => hall e (by simp [he]))

/-- C8: running the probe's save phase a second time over identical
classified events leaves the persisted store unchanged and persists zero
documents — every incoming event with a (truthy) detail URL is skipped
because some document in the store already carries that URL (the check is
against the store). The hypotheses state that the first run's batch used
fresh, pairwise distinct document ids, so its commit is a pure append. -/
theorem probe_rerun_idempotent (store : List EvDoc) (events : List ProbeEvent)
    (hfresh : ∀ b ∈ (saveCityLeagueEvents store events).batch, ∀ x ∈ store,
      x.docId ≠ b.docId)
    (hnodup : ((saveCityLeagueEvents store events).batch.map (fun d => d.docId)).Nodup) :
    (saveCityLeagueEvents (saveCityLeagueEvents store events).store events).store =
      (saveCityLeagueEvents store events).store ∧
    (saveCityLeagueEvents (saveCityLeagueEvents store events).store events).documents = 0 := by
  cases events with
  | nil => exact ⟨rfl, rfl⟩
  | cons ev0 rest =>
    have hbatch : (saveCityLeagueEvents store (ev0 :: rest)).batch =
        (probeLoop store (ev0 :: rest) (fun c => (store.filter
          (fun d => d.dateYmd == ev0.dateYmd && d.cityLeagueCategory == some c)).length)
          [] 0).1 := rfl
    have hdocs : (saveCityLeagueEvents store (ev0 :: rest)).documents =
        (probeLoop store (ev0 :: rest) (fun c => (store.filter
          (fun d => d.dateYmd == ev0.dateYmd && d.cityLeagueCategory == some c)).length)
          [] 0).2 := rfl
    have hstore1 : (saveCityLeagueEvents store (ev0 :: rest)).store =
        (if 0 < (probeLoop store (ev0 :: rest) (fun c => (store.filter
            (fun d => d.dateYmd == ev0.dateYmd && d.cityLeagueCategory == some c)).length)
            [] 0).2
          then applyBatch store (probeLoop store (ev0 :: rest) (fun c => (store.filter
            (fun d => d.dateYmd == ev0.dateYmd && d.cityLeagueCategory == some c)).length)
            [] 0).1
          else store) := rfl
    obtain ⟨ext, hext1, hext2⟩ := probeLoop_batch_ext store (ev0 :: rest)
      (fun c => (store.filter
        (fun d => d.dateYmd == ev0.dateYmd && d.cityLeagueCategory == some c)).length) [] 0
    have hmem_store : ∀ d ∈ store, d ∈ (saveCityLeagueEvents store (ev0 :: rest)).store := by
      intro d hd
      rw [hstore1]
      by_cases hn : 0 < (probeLoop store (ev0 :: rest) (fun c => (store.filter
          (fun d => d.dateYmd == ev0.dateYmd && d.cityLeagueCategory == some c)).length)
          [] 0).2
      · rw [if_pos hn]
        rw [applyBatch_fresh store _ (fun b hb x hx => hfresh b (by rw [hbatch]; exact hb) x hx)
          (by rw [← hbatch]; exact hnodup)]
        exact List.mem_append_left _ hd
      · rw [if_neg hn]
        exact hd
    have hmem_batch : ∀ d ∈ (saveCityLeagueEvents store (ev0 :: rest)).batch,
        d ∈ (saveCityLeagueEvents store (ev0 :: rest)).store := by
      intro d hd
      rw [hbatch] at hd
      rw [hstore1]
      have hn : 0 < (probeLoop store (ev0 :: rest) (fun c => (store.filter
          (fun d => d.dateYmd == ev0.dateYmd && d.cityLeagueCategory == some c)).length)
          [] 0).2 := by
        rw [hext2]
        rcases Nat.eq_zero_or_pos ext.length with hz | hp
        · rw [List.eq_nil_of_length_eq_zero hz] at hext1
          rw [hext1] at hd
          cases hd
        · omega
      rw [if_pos hn]
      rw [applyBatch_fresh store _ (fun b hb x hx => hfresh b (by rw [hbatch]; exact hb) x hx)
        (by rw [← hbatch]; exact hnodup)]
      exact List.mem_append_right _ hd
    have hcover : ∀ ev ∈ ev0 :: rest, ∀ u, jsOrNullStr ev.detailUrl = some u →
        ((saveCityLeagueEvents store (ev0 :: rest)).store.any
          (fun d => d.detailUrl == u)) = true := by
      intro ev hev u hu
      rcases probeLoop_covers store (ev0 :: rest) (fun c => (store.filter
          (fun d => d.dateYmd == ev0.dateYmd && d.cityLeagueCategory == some c)).length)
          [] 0 ev u hev hu with ⟨d, hd, hdu⟩ | ⟨d, hd, hdu⟩
      · exact List.any_eq_true.mpr ⟨d, hmem_store d hd, by simpa using hdu⟩
      · exact List.any_eq_true.mpr ⟨d, hmem_batch d (by rw [hbatch]; exact hd),
          by simpa using hdu⟩
    have hloop2 := probeLoop_all_dup (saveCityLeagueEvents store (ev0 :: rest)).store
      (ev0 :: rest)
      (fun c => ((saveCityLeagueEvents store (ev0 :: rest)).store.filter
        (fun d => d.dateYmd == ev0.dateYmd && d.cityLeagueCategory == some c)).length)
      [] 0 hcover
    constructor
    · show (if 0 < (probeLoop (saveCityLeagueEvents store (ev0 :: rest)).store (ev0 :: rest)
          (fun c => ((saveCityLeagueEvents store (ev0 :: rest)).store.filter
            (fun d => d.dateYmd == ev0.dateYmd && d.cityLeagueCategory == some c)).length)
          [] 0).2
        then applyBatch (saveCityLeagueEvents store (ev0 :: rest)).store
          (probeLoop (saveCityLeagueEvents store (ev0 :: rest)).store (ev0 :: rest)
            (fun c => ((saveCityLeagueEvents store (ev0 :: rest)).store.filter
              (fun d => d.dateYmd == ev0.dateYmd && d.cityLeagueCategory == some c)).length)
            [] 0).1
        else (saveCityLeagueEvents store (ev0 :: rest)).store) =
        (saveCityLeagueEvents store (ev0 :: rest)).store
      rw [hloop2]
      simp
    · show (probeLoop (saveCityLeagueEvents store (ev0 :: rest)).store (ev0 :: rest)
          (fun c => ((saveCityLeagueEvents store (ev0 :: rest)).store.filter
            (fun d => d.dateYmd == ev0.dateYmd && d.cityLeagueCategory == some c)).length)
          [] 0).2 = 0
      rw [hloop2]

/-- Witness for `probe_rerun_idempotent`: one concrete classified event
saved into an empty store; the second run persists nothing and leaves the
store as after the first run. -/
theorem probe_rerun_idempotent_witness :
    (saveCityLeagueEvents
        (saveCityLeagueEvents []
          [⟨"20250307", "3/7", "loc", "シティリーグ オープン",
            some "https://p/event/detail/1", some Cat.openC⟩]).store
        [⟨"20250307", "3/7", "loc", "シティリーグ オープン",
          some "https://p/event/detail/1", some Cat.openC⟩]).store =
      (saveCityLeagueEvents []
        [⟨"20250307", "3/7", "loc", "シティリーグ オープン",
          some "https://p/event/detail/1", some Cat.openC⟩]).store ∧
    (saveCityLeagueEvents
        (saveCityLeagueEvents []
          [⟨"20250307", "3/7", "loc", "シティリーグ オープン",
            some "https://p/event/detail/1", some Cat.openC⟩]).store
        [⟨"20250307", "3/7", "loc", "シティリーグ オープン",
          some "https://p/event/detail/1", some Cat.openC⟩]).documents = 0 :=
  probe_rerun_idempotent []
    [⟨"20250307", "3/7", "loc", "シティリーグ オープン",
      some "https://p/event/detail/1", some Cat.openC⟩]
    (by intro b hb x hx; cases hx) (by decide)

theorem string_append_right_ne (x a b : String) (h : a ≠ b) : x ++ a ≠ x ++ b := by
  intro he
  apply h
  have hd := congrArg String.data he
  rw [String.data_append, String.data_append] at hd
  exact String.ext (List.append_cancel_left hd)

/-- C10: the probe's duplicate check consults only the committed store, not
the rows queued in the current batch — two classified entries with the same
new detail URL within one run are both persisted, as two distinct documents
whose ids carry consecutive sequence numbers. -/
theorem probe_within_run_duplicates (store : List EvDoc) (ev1 ev2 : ProbeEvent)
    (u d : String) (c : Cat)
    (h1u : ev1.detailUrl = some u) (h2u : ev2.detailUrl = some u) (hu : u ≠ "")
    (hstore : ∀ x ∈ store, x.detailUrl ≠ u)
    (h1d : ev1.dateYmd = d) (h2d : ev2.dateYmd = d)
    (h1c : ev1.cityLeagueCategory = some c) (h2c : ev2.cityLeagueCategory = some c)
    (hcount : (store.filter
      (fun x => x.dateYmd == d && x.cityLeagueCategory == some c)).length = 0) :
    ∃ doc1 doc2 : EvDoc,
      (saveCityLeagueEvents store [ev1, ev2]).batch = [doc1, doc2] ∧
      (saveCityLeagueEvents store [ev1, ev2]).documents = 2 ∧
      doc1.detailUrl = u ∧ doc2.detailUrl = u ∧
      doc1.docId = "event-" ++ d ++ "-" ++ Cat.code c ++ "-" ++ padStart2 1 ∧
      doc2.docId = "event-" ++ d ++ "-" ++ Cat.code c ++ "-" ++ padStart2 2 ∧
      doc1.docId ≠ doc2.docId ∧
      doc1 ∈ (saveCityLeagueEvents store [ev1, ev2]).store ∧
      doc2 ∈ (saveCityLeagueEvents store [ev1, ev2]).store := by
  have htc : toCatCode (some c) = c := by cases c <;> rfl
  have hanyf : (store.any fun x => x.detailUrl == u) = false := by
    apply Bool.eq_false_iff.mpr
    intro h
    obtain ⟨x, hx, hxu⟩ := List.any_eq_true.mp h
    exact hstore x hx (by simpa using hxu)
  have hne : ("event-" ++ d ++ "-" ++ Cat.code c ++ "-" ++ padStart2 1 : String) ≠
      "event-" ++ d ++ "-" ++ Cat.code c ++ "-" ++ padStart2 2 := by
    have hp1 : padStart2 1 = "01" := rfl
    have hp2 : padStart2 2 = "02" := rfl
    rw [hp1, hp2]
    exact string_append_right_ne ("event-" ++ d ++ "-" ++ Cat.code c ++ "-") "01" "02"
      (by decide)
  have hloop : probeLoop store [ev1, ev2]
      (fun cc => (store.filter
        (fun x => x.dateYmd == ev1.dateYmd && x.cityLeagueCategory == some cc)).length)
      [] 0 =
      ([⟨"event-" ++ d ++ "-" ++ Cat.code c ++ "-" ++ padStart2 1, ev1.title, d,
          jsTrim ev1.dateOnly, u, some c, false⟩,
        ⟨"event-" ++ d ++ "-" ++ Cat.code c ++ "-" ++ padStart2 2, ev2.title, d,
          jsTrim ev2.dateOnly, u, some c, false⟩], 2) := by
    have hnex : ¬∃ x ∈ store, x.detailUrl = u := by
      rintro ⟨x, hx, hxu⟩
      exact hstore x hx hxu
    simp only [probeLoop, h1u, h2u, h1c, h2c, h1d, h2d, htc, jsOrNullStr, jsOrStr, hu,
      hanyf, hcount]
    simp [hu, hcount, h1d, h2d, h1c, h2c, htc, hnex]
  have hbatch : (saveCityLeagueEvents store [ev1, ev2]).batch =
      (probeLoop store [ev1, ev2]
        (fun cc => (store.filter
          (fun x => x.dateYmd == ev1.dateYmd && x.cityLeagueCategory == some cc)).length)
        [] 0).1 := rfl
  have hdocs : (saveCityLeagueEvents store [ev1, ev2]).documents =
      (probeLoop store [ev1, ev2]
        (fun cc => (store.filter
          (fun x => x.dateYmd == ev1.dateYmd && x.cityLeagueCategory == some cc)).length)
        [] 0).2 := rfl
  have hstore2 : (saveCityLeagueEvents store [ev1, ev2]).store =
      applyBatch store
        [⟨"event-" ++ d ++ "-" ++ Cat.code c ++ "-" ++ padStart2 1, ev1.title, d,
          jsTrim ev1.dateOnly, u, some c, false⟩,
         ⟨"event-" ++ d ++ "-" ++ Cat.code c ++ "-" ++ padStart2 2, ev2.title, d,
          jsTrim ev2.dateOnly, u, some c, false⟩] := by
    show (if 0 < (probeLoop store [ev1, ev2]
        (fun cc => (store.filter
          (fun x => x.dateYmd == ev1.dateYmd && x.cityLeagueCategory == some cc)).length)
        [] 0).2
      then applyBatch store (probeLoop store [ev1, ev2]
        (fun cc => (store.filter
          (fun x => x.dateYmd == ev1.dateYmd && x.cityLeagueCategory == some cc)).length)
        [] 0).1
      else store) = _
    rw [hloop]
    simp
  refine ⟨⟨"event-" ++ d ++ "-" ++ Cat.code c ++ "-" ++ padStart2 1, ev1.title, d,
      jsTrim ev1.dateOnly, u, some c, false⟩,
    ⟨"event-" ++ d ++ "-" ++ Cat.code c ++ "-" ++ padStart2 2, ev2.title, d,
      jsTrim ev2.dateOnly, u, some c, false⟩,
    ?_, ?_, rfl, rfl, rfl, rfl, hne, ?_, ?_⟩
  · rw [hbatch, hloop]
  · rw [hdocs, hloop]
  · rw [hstore2]
    show _ ∈ setDoc (setDoc store _) _
    exact mem_setDoc_of_ne _ _ hne _ (mem_setDoc_self _ _)
  · rw [hstore2]
    show _ ∈ setDoc (setDoc store _) _
    exact mem_setDoc_self _ _

/-- Witness for `probe_within_run_duplicates`: two same-URL events in one
run over the empty store both end up in the store. -/
theorem probe_within_run_duplicates_witness :
    ∃ doc1 doc2 : EvDoc,
      (saveCityLeagueEvents []
        [⟨"20250307", "3/7", "loc", "シティリーグ オープン",
          some "https://p/event/detail/9", some Cat.openC⟩,
         ⟨"20250307", "3/7", "loc2", "シティリーグ オープン",
          some "https://p/event/detail/9", some Cat.openC⟩]).batch = [doc1, doc2] ∧
      (saveCityLeagueEvents []
        [⟨"20250307", "3/7", "loc", "シティリーグ オープン",
          some "https://p/event/detail/9", some Cat.openC⟩,
         ⟨"20250307", "3/7", "loc2", "シティリーグ オープン",
          some "https://p/event/detail/9", some Cat.openC⟩]).documents = 2 ∧
      doc1.detailUrl = "https://p/event/detail/9" ∧
      doc2.detailUrl = "https://p/event/detail/9" ∧
      doc1.docId = "event-" ++ "20250307" ++ "-" ++ Cat.code Cat.openC ++ "-" ++ padStart2 1 ∧
      doc2.docId = "event-" ++ "20250307" ++ "-" ++ Cat.code Cat.openC ++ "-" ++ padStart2 2 ∧
      doc1.docId ≠ doc2.docId ∧
      doc1 ∈ (saveCityLeagueEvents []
        [⟨"20250307", "3/7", "loc", "シティリーグ オープン",
          some "https://p/event/detail/9", some Cat.openC⟩,
         ⟨"20250307", "3/7", "loc2", "シティリーグ オープン",
          some "https://p/event/detail/9", some Cat.openC⟩]).store ∧
      doc2 ∈ (saveCityLeagueEvents []
        [⟨"20250307", "3/7", "loc", "シティリーグ オープン",
          some "https://p/event/detail/9", some Cat.openC⟩,
         ⟨"20250307", "3/7", "loc2", "シティリーグ オープン",
          some "https://p/event/detail/9", some Cat.openC⟩]).store :=
  probe_within_run_duplicates [] _ _ "https://p/event/detail/9" "20250307" Cat.openC
    rfl rfl (by decide) (by intro x hx; cases hx) rfl rfl rfl rfl rfl

theorem assignGroupIds_rank_map (ymd : String) :
    ∀ (rows : List SnapRow) (cnt : String × Int → Nat),
      (assignGroupIdsGo ymd rows cnt).map (fun r => r.rank) =
        rows.map (fun r => r.rank) := by
  intro rows
  induction rows with
  | nil => intro cnt; rfl
  | cons r rest ih =>
    intro cnt
    simp only [assignGroupIdsGo, List.map_cons]
    rw [ih]
    congr 1
    by_cases h : r.originalEventId.getD "" ≠ "" ∧ (r.rank = 1 ∨ r.rank = 2 ∨ r.rank = 3) <;>
      simp [h]

theorem assignGroupIds_patch_id (ymd : String) :
    ∀ (rows : List SnapRow) (cnt : String × Int → Nat) (r : SnapRow),
      r ∈ assignGroupIdsGo ymd rows cnt → patchRow ymd r = r := by
  intro rows
  induction rows with
  | nil => intro cnt r h; cases h
  | cons r0 rest ih =>
    intro cnt r hmem
    simp only [assignGroupIdsGo] at hmem
    rcases List.mem_cons.mp hmem with rfl | h2
    · by_cases h : r0.originalEventId.getD "" ≠ "" ∧ (r0.rank = 1 ∨ r0.rank = 2 ∨ r0.rank = 3)
      · simp only [if_pos h]
        rfl
      · simp only [if_neg h]
        simp only [patchRow]
        rw [if_neg (by simpa using h)]
    · exact ih _ r h2

theorem insertGroup_keys (k : String) (r : SnapRow) :
    ∀ (m : List (String × List SnapRow)),
      (insertGroup m k r).map Prod.fst =
        if k ∈ m.map Prod.fst then m.map Prod.fst else m.map Prod.fst ++ [k] := by
  intro m
  induction m with
  | nil => simp [insertGroup]
  | cons p rest ih =>
    obtain ⟨k0, rs⟩ := p
    by_cases h : k0 = k
    · subst h
      simp [insertGroup]
    · have hne : ¬ k = k0 := fun he => h he.symm
      simp only [insertGroup, if_neg h, List.map_cons, ih]
      by_cases hmem : k ∈ rest.map Prod.fst
      · simp [hmem, hne]
      · simp [hmem, hne]

theorem insertGroup_lookup (k : String) (r : SnapRow) :
    ∀ (m : List (String × List SnapRow)) (q : String),
      lookupG (insertGroup m k r) q =
        if q = k then some ((lookupG m k).getD [] ++ [r]) else lookupG m q := by
  intro m
  induction m with
  | nil =>
    intro q
    by_cases h : q = k
    · simp [insertGroup, lookupG, h]
    · have h2 : ¬ k = q := fun he => h he.symm
      simp [insertGroup, lookupG, h, h2]
  | cons p rest ih =>
    intro q
    obtain ⟨k0, rs⟩ := p
    by_cases h0 : k0 = k
    · subst h0
      by_cases hq : q = k0
      · subst hq
        simp [insertGroup, lookupG]
      · have hq2 : ¬ k0 = q := fun he => hq he.symm
        simp [insertGroup, lookupG, hq, hq2]
    · by_cases hq : q = k0
      · subst hq
        have hqk : ¬ q = k := h0
        simp [insertGroup, lookupG, h0, hqk]
      · have hq2 : ¬ k0 = q := fun he => hq he.symm
        simp only [insertGroup, if_neg h0, lookupG, if_neg hq2]
        exact ih q

theorem groupFold_lookup (rows : List SnapRow) :
    ∀ (m : List (String × List SnapRow)) (k : String),
      lookupG (rows.foldl (fun m r => insertGroup m (orgKey r.organizer) r) m) k =
        optJoin (lookupG m k) (rows.filter (fun r => orgKey r.organizer == k)) := by
  induction rows with
  | nil =>
    intro m k
    cases h : lookupG m k <;> simp [optJoin, h]
  | cons r rest ih =>
    intro m k
    simp only [List.foldl_cons, List.filter_cons]
    by_cases hk : (orgKey r.organizer == k) = true
    · have hkeq : orgKey r.organizer = k := by simpa using hk
      rw [ih, insertGroup_lookup, hkeq]
      simp only [if_pos rfl, hk, if_true]
      cases h : lookupG m k <;> simp [optJoin, h]
    · have hkne : ¬ (k = orgKey r.organizer) := by
        intro he
        exact hk (by simp [he.symm])
      rw [ih, insertGroup_lookup, if_neg hkne]
      simp [hk]

theorem groupByOrg_keys_nodup (rows : List SnapRow) :
    ((groupByOrg rows).map Prod.fst).Nodup := by
  suffices h : ∀ m, (m.map Prod.fst).Nodup →
      ((rows.foldl (fun m r => insertGroup m (orgKey r.organizer) r) m).map Prod.fst).Nodup by
    exact h [] (by simp)
  induction rows with
  | nil => intro m hm; simpa using hm
  | cons r rest ih =>
    intro m hm
    simp only [List.foldl_cons]
    apply ih
    rw [insertGroup_keys]
    by_cases hmem : orgKey r.organizer ∈ m.map Prod.fst
    · simp [hmem, hm]
    · rw [if_neg hmem]
      rw [List.nodup_append]
      refine ⟨hm, List.nodup_singleton _, ?_⟩
      intro a ha hamem
      have : a = orgKey r.organizer := by simpa using hamem
      subst this
      exact hmem ha

theorem lookupG_of_mem (k : String) (rs : List SnapRow) :
    ∀ (m : List (String × List SnapRow)), (m.map Prod.fst).Nodup → (k, rs) ∈ m →
      lookupG m k = some rs := by
  intro m
  induction m with
  | nil => intro _ h; cases h
  | cons p rest ih =>
    intro hnd hmem
    obtain ⟨k0, rs0⟩ := p
    rcases List.mem_cons.mp hmem with heq | h2
    · injection heq with hk1 hk2
      subst hk1
      subst hk2
      simp [lookupG]
    · have hk0 : ¬ k0 = k := by
        intro he
        subst he
        have hkmem : k0 ∈ rest.map Prod.fst :=
          List.mem_map.mpr ⟨(k0, rs), h2, rfl⟩
        exact (List.nodup_cons.mp (by simpa using hnd)).1 hkmem
      simp only [lookupG, if_neg hk0]
      exact ih (List.nodup_cons.mp (by simpa using hnd)).2 h2

theorem mem_keys_of_lookupG (k : String) (rs : List SnapRow) :
    ∀ (m : List (String × List SnapRow)), lookupG m k = some rs → k ∈ m.map Prod.fst := by
  intro m
  induction m with
  | nil => intro h; cases h
  | cons p rest ih =>
    intro h
    obtain ⟨k0, rs0⟩ := p
    by_cases h0 : k0 = k
    · simp [h0]
    · simp only [lookupG, if_neg h0] at h
      simp [ih h]

/-- C9: every category snapshot the builder writes has its `rankings` array
sorted ascending by rank, and its `groups` partition the rankings keyed by
the trimmed organizer name with empty or missing organizer mapped to
`unknown`: the group keys are pairwise distinct, each group's rows are
exactly (up to the group-internal re-sort, a permutation) the rankings
whose key equals the group's organizer, and every ranking's key occurs
among the group keys. -/
theorem snapshot_invariants (resolve : String → Option String) (ymd : String)
    (docs : List RankStoreDoc) :
    ((buildCategorySnapshot resolve ymd docs).1.Pairwise
      (fun a b => a.rank ≤ b.rank)) ∧
    (((buildCategorySnapshot resolve ymd docs).2.map Prod.fst).Nodup) ∧
    (∀ g ∈ (buildCategorySnapshot resolve ymd docs).2,
      g.2.Perm ((buildCategorySnapshot resolve ymd docs).1.filter
        (fun r => orgKey r.organizer == g.1))) ∧
    (∀ r ∈ (buildCategorySnapshot resolve ymd docs).1,
      orgKey r.organizer ∈ (buildCategorySnapshot resolve ymd docs).2.map Prod.fst) := by
  have h1 : (buildCategorySnapshot resolve ymd docs).1 =
      assignGroupIdsGo ymd ((docs.map (buildRow resolve)).mergeSort rankLe)
        (fun _ => 0) := rfl
  have h2 : (buildCategorySnapshot resolve ymd docs).2 =
      (groupByOrg (assignGroupIdsGo ymd ((docs.map (buildRow resolve)).mergeSort rankLe)
        (fun _ => 0))).map
        (fun g => (g.1, (g.2.mergeSort rankLe).map (patchRow ymd))) := rfl
  have htrans : ∀ a b c : SnapRow, rankLe a b = true → rankLe b c = true →
      rankLe a c = true := by
    intro a b c hab hbc
    simp only [rankLe, decide_eq_true_eq] at *
    omega
  have htotal : ∀ a b : SnapRow, (rankLe a b || rankLe b a) = true := by
    intro a b
    simp only [rankLe, Bool.or_eq_true, decide_eq_true_eq]
    omega
  have hkeys : (buildCategorySnapshot resolve ymd docs).2.map Prod.fst =
      (groupByOrg (assignGroupIdsGo ymd ((docs.map (buildRow resolve)).mergeSort rankLe)
        (fun _ => 0))).map Prod.fst := by
    rw [h2, List.map_map]
    rfl
  have hgrpfilter : ∀ k rs,
      (k, rs) ∈ groupByOrg (assignGroupIdsGo ymd
        ((docs.map (buildRow resolve)).mergeSort rankLe) (fun _ => 0)) →
      rs = (assignGroupIdsGo ymd ((docs.map (buildRow resolve)).mergeSort rankLe)
        (fun _ => 0)).filter (fun r => orgKey r.organizer == k) := by
    intro k rs hmem
    have hlk := lookupG_of_mem k rs _ (groupByOrg_keys_nodup _) hmem
    rw [groupByOrg] at hlk
    rw [groupFold_lookup] at hlk
    simp only [lookupG] at hlk
    cases hf : (assignGroupIdsGo ymd ((docs.map (buildRow resolve)).mergeSort rankLe)
        (fun _ => 0)).filter (fun r => orgKey r.organizer == k) with
    | nil =>
      rw [hf] at hlk
      simp [optJoin] at hlk
    | cons a t =>
      rw [hf] at hlk
      simp only [optJoin] at hlk
      injection hlk with hlk2
      rw [← hlk2]
  refine ⟨?_, ?_, ?_, ?_⟩
  · rw [h1]
    have hs : ((docs.map (buildRow resolve)).mergeSort rankLe).Pairwise
        (fun a b => rankLe a b = true) :=
      List.sorted_mergeSort htrans htotal _
    have hs2 : (((docs.map (buildRow resolve)).mergeSort rankLe).map
        (fun r => r.rank)).Pairwise (fun a b => a ≤ b) :=
      List.pairwise_map.mpr (hs.imp (by
        intro a b hab
        simpa [rankLe] using hab))
    rw [← assignGroupIds_rank_map ymd _ (fun _ => 0)] at hs2
    exact List.pairwise_map.mp hs2
  · rw [hkeys]
    exact groupByOrg_keys_nodup _
  · intro g hg
    rw [h2] at hg
    obtain ⟨g0, hg0, rfl⟩ := List.mem_map.mp hg
    obtain ⟨k, rs⟩ := g0
    have hrs := hgrpfilter k rs hg0
    have hid : ∀ x ∈ rs.mergeSort rankLe, patchRow ymd x = x := by
      intro x hx
      have hx2 : x ∈ rs := (List.mergeSort_perm rs rankLe).mem_iff.mp hx
      rw [hrs] at hx2
      exact assignGroupIds_patch_id ymd _ _ x (List.mem_of_mem_filter hx2)
    have hmapid : (rs.mergeSort rankLe).map (patchRow ymd) = rs.mergeSort rankLe := by
      rw [List.map_congr_left hid]
      exact List.map_id _
    show ((rs.mergeSort rankLe).map (patchRow ymd)).Perm _
    rw [hmapid, h1, hrs]
    exact List.mergeSort_perm _ _
  · intro r hr
    rw [h1] at hr
    rw [hkeys]
    have hfmem : r ∈ (assignGroupIdsGo ymd
        ((docs.map (buildRow resolve)).mergeSort rankLe) (fun _ => 0)).filter
        (fun r2 => orgKey r2.organizer == orgKey r.organizer) :=
      List.mem_filter.mpr ⟨hr, by simp⟩
    apply mem_keys_of_lookupG (orgKey r.organizer)
      ((assignGroupIdsGo ymd ((docs.map (buildRow resolve)).mergeSort rankLe)
        (fun _ => 0)).filter (fun r2 => orgKey r2.organizer == orgKey r.organizer))
    rw [groupByOrg, groupFold_lookup]
    simp only [lookupG]
    cases hf : (assignGroupIdsGo ymd ((docs.map (buildRow resolve)).mergeSort rankLe)
        (fun _ => 0)).filter (fun r2 => orgKey r2.organizer == orgKey r.organizer) with
    | nil =>
      rw [hf] at hfmem
      cases hfmem
    | cons a t =>
      simp [optJoin]
